import Mathlib

/-!
# Offboard attitude-setpoint node (`setpoint_attitude.cpp`)

A shallow embedding of the node's rotation arithmetic, of its two callbacks, of
the setpoints `main` builds, of its wait for the link and of its tick loop, with
the properties of its specification settled against it.

* Floating point values are modelled by real numbers; `cosf`, `sinf`,
  `atan2f` and `asin` are the real functions, `asin` being partial (a domain
  error outside `[-1, 1]`). The conversion of the `double` fields of an IMU
  message to `float` is the rounding `to_float`.
* `ros::Time` values are natural numbers of nanoseconds, a `ros::Duration` is
  an integer number of nanoseconds; the clock is the sequence of readings
  returned by the successive `ros::Time::now()` calls.
* `int16_t step_counter` is an integer kept in `[-32768, 32767]` by wrapping
  modulo `2^16` at the increment.
-/

namespace SetpointAttitude

/-! ## Rotation arithmetic -/

/-- The C library `atan2f(y, x)` over the reals: the angle in `(-π, π]` of the
point `(x, y)`, and `0` at the origin. -/
noncomputable def atan2f (y x : ℝ) : ℝ := Complex.arg ⟨x, y⟩

/-- The C library `asin` over the reals: the arcsine on `[-1, 1]`, and a domain
error (`none`) for any other argument. -/
noncomputable def asin (x : ℝ) : Option ℝ :=
  if -1 ≤ x ∧ x ≤ 1 then some (Real.arcsin x) else none

/-- The record `struct attitude_quat`. -/
structure attitude_quat where
  q1 : ℝ
  q2 : ℝ
  q3 : ℝ
  q4 : ℝ

/-- Roll angle of the quaternion `(q1, q2, q3, q4) = (w, x, y, z)`. -/
noncomputable def get_euler_roll (q1 q2 q3 q4 : ℝ) : ℝ :=
  atan2f (2 * (q1 * q2 + q3 * q4)) (1 - 2 * (q2 * q2 + q3 * q3))

/-- Pitch angle: `asin` is applied to `2 (q1 q3 - q4 q2)` as it is. -/
noncomputable def get_euler_pitch (q1 q2 q3 q4 : ℝ) : Option ℝ :=
  asin (2 * (q1 * q3 - q4 * q2))

/-- Yaw angle of the quaternion `(q1, q2, q3, q4) = (w, x, y, z)`. -/
noncomputable def get_euler_yaw (q1 q2 q3 q4 : ℝ) : ℝ :=
  atan2f (2 * (q1 * q4 + q2 * q3)) (1 - 2 * (q3 * q3 + q4 * q4))

/-- The value `from_euler` stores in the global `att_quat`. -/
noncomputable def from_euler (roll pitch yaw : ℝ) : attitude_quat :=
  let cr2 := Real.cos (roll * 0.5)
  let cp2 := Real.cos (pitch * 0.5)
  let cy2 := Real.cos (yaw * 0.5)
  let sr2 := Real.sin (roll * 0.5)
  let sp2 := Real.sin (pitch * 0.5)
  let sy2 := Real.sin (yaw * 0.5)
  { q1 := cr2 * cp2 * cy2 + sr2 * sp2 * sy2
    q2 := sr2 * cp2 * cy2 - cr2 * sp2 * sy2
    q3 := cr2 * sp2 * cy2 + sr2 * cp2 * sy2
    q4 := cr2 * cp2 * sy2 - sr2 * sp2 * cy2 }

/-! ## The tick loop of `main` -/

/-- The fields of the cached `mavros_msgs::State` (`current_state`) that the
node reads. -/
structure VehicleState where
  connected : Bool
  armed : Bool
  mode : String
  deriving DecidableEq

/-- What one iteration of the loop does towards the outside, in program order:
a call of `set_mode_client` or of `arming_client` (tagged with the clock reading
at which its cool-down test was evaluated), a `local_pos_pub.publish(pose)` or a
`local_attitude_pub.publish(attitude_raw)`. -/
inductive Event where
  | set_mode_call (evaluated_at : Nat)
  | arming_call (evaluated_at : Nat)
  | pos_pub
  | att_pub
  deriving DecidableEq

/-- The local variables of `main` that live across iterations, and the number
of `ros::Time::now()` calls made so far. -/
structure LoopState where
  last_request : Nat
  step_counter : Int
  step_one : Int
  now_calls : Nat
  deriving DecidableEq

/-- Conversion of an integer to `int16_t`: wrapping modulo `2^16`. -/
def wrap16 (x : Int) : Int := (x + 32768) % 65536 - 32768

/-- The test `now - last_request > ros::Duration(5.0)`, in nanoseconds. -/
def cooldown_elapsed (now last_request : Nat) : Bool :=
  decide ((now : Int) - (last_request : Int) > 5000000000)

/-- The state on entry to the loop: `last_request = ros::Time::now()` is the
first clock reading, `step_counter = 0`, `step_one = 1`. -/
def init (clk : Nat → Nat) : LoopState :=
  { last_request := clk 0, step_counter := 0, step_one := 1, now_calls := 1 }

/-- One iteration of `while(ros::ok())`, with the clock `clk` (the `i`-th call of
`ros::Time::now()` returns `clk i`) and the cached vehicle state `cs`, which
changes only in `ros::spinOnce()` at the end of an iteration. The two `&&` are
short-circuit: the clock is read for a cool-down test only when the left operand
holds. `c1` and `c2` are the values of the two conditions, each with the number
of clock readings taken once it is evaluated. The responses of the two services
are only logged; the `ROS_INFO` lines and the unused `_rotMatrix` and
`eular_angle` have no effect on the state or on what is sent and are left out. -/
def tick (clk : Nat → Nat) (cs : VehicleState) (s : LoopState) : LoopState × List Event :=
  let c1 : Bool × Nat :=
    if cs.mode != "OFFBOARD" then
      (cooldown_elapsed (clk s.now_calls) s.last_request, s.now_calls + 1)
    else (false, s.now_calls)
  let r : LoopState × List Event :=
    if c1.1 then
      ({ s with last_request := clk c1.2, now_calls := c1.2 + 1 },
        [Event.set_mode_call (clk s.now_calls)])
    else
      let c2 : Bool × Nat :=
        if !cs.armed then (cooldown_elapsed (clk c1.2) s.last_request, c1.2 + 1)
        else (false, c1.2)
      if c2.1 then
        ({ s with last_request := clk c2.2, now_calls := c2.2 + 1 },
          [Event.arming_call (clk c1.2)])
      else
        ({ s with step_one := if s.step_counter < 400 then 1 else 0, now_calls := c2.2 }, [])
  let pub : List Event := if r.1.step_one != 0 then [Event.pos_pub] else [Event.att_pub]
  ({ r.1 with step_counter := wrap16 (r.1.step_counter + 1) }, r.2 ++ pub)

/-- The loop state at the start of iteration `n` (counted from `0`), the cached
vehicle state during iteration `k` being `tel k`. -/
def state_at (clk : Nat → Nat) (tel : Nat → VehicleState) : Nat → LoopState
  | 0 => init clk
  | n + 1 => (tick clk (tel n) (state_at clk tel n)).1

/-- The events of iteration `n` (counted from `0`). -/
def events_at (clk : Nat → Nat) (tel : Nat → VehicleState) (n : Nat) : List Event :=
  (tick clk (tel n) (state_at clk tel n)).2

/-- Whether an event is a service call (a mode-change or an arm request). -/
def Event.is_request : Event → Bool
  | Event.set_mode_call _ => true
  | Event.arming_call _ => true
  | _ => false

/-- The clock reading attached to a service call. -/
def Event.request_time : Event → Option Nat
  | Event.set_mode_call t => some t
  | Event.arming_call t => some t
  | _ => none

/-! ## The callbacks and the cached telemetry -/

/-- The quaternion of a message, `geometry_msgs::Quaternion`. -/
structure Orientation where
  w : ℝ
  x : ℝ
  y : ℝ
  z : ℝ

/-- The field of `sensor_msgs::Imu` that the node reads. -/
structure Imu where
  orientation : Orientation

/-- The global variables written by the two callbacks: `current_state`,
`current_imudata`, `current_imu_quat` and `_roll`, `_pitch`, `_yaw`. The pitch
is `none` when `asin` had a domain error. -/
structure Globals where
  current_state : VehicleState
  current_imudata : Imu
  current_imu_quat : Orientation
  _roll : ℝ
  _pitch : Option ℝ
  _yaw : ℝ

/-- The callback `state_cb`: `current_state = *msg`. -/
def state_cb (msg : VehicleState) (g : Globals) : Globals :=
  { g with current_state := msg }

/-- Rounding of a real to the nearest integer, a tie going to the even one. -/
noncomputable def round_half_even (t : ℝ) : ℤ :=
  if Int.fract t = 1 / 2 then (if Even ⌊t⌋ then ⌊t⌋ else ⌊t⌋ + 1) else round t

/-- The conversion of a `double` to `float` (IEEE 754 binary32, round to nearest,
ties to even) for a value of magnitude below `2^128`: with `2^e ≤ |x| < 2^(e+1)`
(`e = -126` for the smaller, subnormal values) the value is rounded to a multiple
of `2^(e-23)`. -/
noncomputable def to_float (x : ℝ) : ℝ :=
  (round_half_even (x / 2 ^ (max (Int.log 2 |x|) (-126) - 23)) : ℝ)
    * 2 ^ (max (Int.log 2 |x|) (-126) - 23)

/-- The values `to_euler` writes through its three references, computed from
the global `current_imudata`. The orientation fields of the message are
`double`; each is converted to `float` where it is passed to the `float`
parameters of `get_euler_roll`, `get_euler_pitch` and `get_euler_yaw`. -/
noncomputable def to_euler (g : Globals) : ℝ × Option ℝ × ℝ :=
  (get_euler_roll (to_float g.current_imudata.orientation.w)
      (to_float g.current_imudata.orientation.x) (to_float g.current_imudata.orientation.y)
      (to_float g.current_imudata.orientation.z),
    get_euler_pitch (to_float g.current_imudata.orientation.w)
      (to_float g.current_imudata.orientation.x) (to_float g.current_imudata.orientation.y)
      (to_float g.current_imudata.orientation.z),
    get_euler_yaw (to_float g.current_imudata.orientation.w)
      (to_float g.current_imudata.orientation.x) (to_float g.current_imudata.orientation.y)
      (to_float g.current_imudata.orientation.z))

/-- The callback `imu_cb`: the message is stored, its orientation is copied,
converted to `float`, to the coefficients of the `Eigen::Quaternionf`
`current_imu_quat`, and `to_euler(_roll,_pitch,_yaw)` is called. -/
noncomputable def imu_cb (msg : Imu) (g : Globals) : Globals :=
  let g1 : Globals := { g with current_imudata := msg }
  let g2 : Globals :=
    { g1 with
      current_imu_quat :=
        { w := to_float g1.current_imudata.orientation.w,
          x := to_float g1.current_imudata.orientation.x,
          y := to_float g1.current_imudata.orientation.y,
          z := to_float g1.current_imudata.orientation.z } }
  { g2 with _roll := (to_euler g2).1, _pitch := (to_euler g2).2.1, _yaw := (to_euler g2).2.2 }

/-- A message delivered by `ros::spinOnce()` to one of the two callbacks. -/
inductive Callback where
  | state (msg : VehicleState)
  | imu (msg : Imu)

/-- The call of the callback a message is for. -/
noncomputable def deliver (c : Callback) (g : Globals) : Globals :=
  match c with
  | Callback.state msg => state_cb msg g
  | Callback.imu msg => imu_cb msg g

/-- The calls of the callbacks for a sequence of messages, in order. -/
noncomputable def deliver_all : List Callback → Globals → Globals
  | [], g => g
  | c :: cs, g => deliver_all cs (deliver c g)

/-- The cached Euler angles and the cached `float` quaternion are those of the
cached sample: what `to_euler` computes from `current_imudata`, and its
orientation converted to `float`. -/
def euler_derived (g : Globals) : Prop :=
  g._roll = (to_euler g).1 ∧ g._pitch = (to_euler g).2.1 ∧ g._yaw = (to_euler g).2.2
    ∧ g.current_imu_quat =
      { w := to_float g.current_imudata.orientation.w,
        x := to_float g.current_imudata.orientation.x,
        y := to_float g.current_imudata.orientation.y,
        z := to_float g.current_imudata.orientation.z }

/-! ## The setpoints built by `main` before the loop -/

/-- The constant `M_PI`. -/
noncomputable def M_PI : ℝ := Real.pi

/-- The local `roll_deg` of `main`. -/
def roll_deg : ℝ := 0

/-- The local `pitch_deg` of `main`. -/
def pitch_deg : ℝ := 0

/-- The local `yaw_deg` of `main`. -/
def yaw_deg : ℝ := 0

/-- The global `att_quat` after the call
`from_euler(roll_deg*M_PI/180, pitch_deg*M_PI/180, yaw_deg*M_PI/180)`. -/
noncomputable def att_quat : attitude_quat :=
  from_euler (roll_deg * M_PI / 180) (pitch_deg * M_PI / 180) (yaw_deg * M_PI / 180)

/-- The fields of `mavros_msgs::AttitudeTarget` that `main` sets. -/
structure AttitudeTarget where
  orientation : Orientation
  thrust : ℝ
  type_mask : Nat

/-- The fields of `geometry_msgs::PoseStamped` that `main` sets. -/
structure PoseStamped where
  position_x : ℝ
  position_y : ℝ
  position_z : ℝ
  orientation : Orientation

/-- The message `attitude_raw` as `main` builds it. -/
noncomputable def attitude_raw : AttitudeTarget :=
  { orientation := { w := att_quat.q1, x := att_quat.q2, y := att_quat.q3, z := att_quat.q4 }
    thrust := 0.7059122
    type_mask := 0b00000111 }

/-- The message `pose` as `main` builds it. -/
noncomputable def pose : PoseStamped :=
  { position_x := 1
    position_y := 2
    position_z := 5
    orientation := { w := att_quat.q1, x := att_quat.q2, y := att_quat.q3, z := att_quat.q4 } }

/-- A published message. -/
inductive Message where
  | on_position_topic (m : PoseStamped)
  | on_attitude_topic (m : AttitudeTarget)

/-- The message an event of the loop publishes: `local_pos_pub.publish(pose)`
and `local_attitude_pub.publish(attitude_raw)`, the loop writing neither `pose`
nor `attitude_raw`. -/
noncomputable def Event.payload : Event → Option Message
  | Event.pos_pub => some (Message.on_position_topic pose)
  | Event.att_pub => some (Message.on_attitude_topic attitude_raw)
  | _ => none

/-- Whether an event is the publication of a setpoint. -/
def Event.is_setpoint : Event → Bool
  | Event.pos_pub => true
  | Event.att_pub => true
  | _ => false

/-! ## The wait for the link and the whole of `main` -/

/-- The loop `while(ros::ok() && !current_state.connected)`, the cached state
after `k` calls of `ros::spinOnce()` being `tel k`: the number of iterations
after which the cached state is connected, looking at most `fuel` iterations
past iteration `k`; `none` when the link is not up by then. -/
def wait_for_link (tel : Nat → VehicleState) : Nat → Nat → Option Nat
  | 0, k => if (tel k).connected then some k else none
  | fuel + 1, k => if (tel k).connected then some k else wait_for_link tel fuel (k + 1)

/-- The events of iteration `n` of the tick loop in a run of `main`: the wait
loop ends after `k` iterations, the clock is first read after it, and the tick
loop starts with the cached state `tel k` that ended the wait. -/
def main_events (clk : Nat → Nat) (tel : Nat → VehicleState) (fuel n : Nat) :
    Option (List Event) :=
  (wait_for_link tel fuel 0).map (fun k => events_at clk (fun i => tel (k + i)) n)

/-! ## The Hamilton product of the three axis rotations -/

/-- The rotation by `a` about the x axis as a quaternion, `(cos(a/2), sin(a/2), 0, 0)`. -/
noncomputable def qx (a : ℝ) : Quaternion ℝ := ⟨Real.cos (a / 2), Real.sin (a / 2), 0, 0⟩

/-- The rotation by `a` about the y axis as a quaternion, `(cos(a/2), 0, sin(a/2), 0)`. -/
noncomputable def qy (a : ℝ) : Quaternion ℝ := ⟨Real.cos (a / 2), 0, Real.sin (a / 2), 0⟩

/-- The rotation by `a` about the z axis as a quaternion, `(cos(a/2), 0, 0, sin(a/2))`. -/
noncomputable def qz (a : ℝ) : Quaternion ℝ := ⟨Real.cos (a / 2), 0, 0, Real.sin (a / 2)⟩

/-- The half-angle composition of the aerospace convention: the Hamilton product
`qz(yaw) * qy(pitch) * qx(roll)`. -/
noncomputable def aerospace_composition (roll pitch yaw : ℝ) : Quaternion ℝ :=
  qz yaw * qy pitch * qx roll

/-! ## Scenarios -/

/-- A vehicle that stays connected, in mode `MANUAL` and disarmed. -/
def tel_manual : Nat → VehicleState :=
  fun _ => { connected := true, armed := false, mode := "MANUAL" }

/-- A vehicle that is in mode `OFFBOARD` and armed on every tick. -/
def tel_offboard_armed : Nat → VehicleState :=
  fun _ => { connected := true, armed := true, mode := "OFFBOARD" }

/-- A vehicle in mode `MANUAL` and disarmed for the first 400 ticks and in mode
`OFFBOARD` and armed from then on. -/
def tel_late_arming : Nat → VehicleState :=
  fun k => if k < 400 then { connected := true, armed := false, mode := "MANUAL" }
    else { connected := true, armed := true, mode := "OFFBOARD" }

/-- A vehicle that stays connected, in mode `MANUAL` and armed. -/
def tel_manual_armed : Nat → VehicleState :=
  fun _ => { connected := true, armed := true, mode := "MANUAL" }

/-- A clock that does not advance: every reading is `0`. -/
def clk_frozen : Nat → Nat := fun _ => 0

/-- A clock that advances by 6 s between two successive readings. -/
def clk_6s : Nat → Nat := fun i => 6000000000 * i

/-- A clock that advances by exactly 5.0 s between two successive readings. -/
def clk_5s : Nat → Nat := fun i => 5000000000 * i

/-- A clock that advances by 20 ms between two successive readings. -/
def clk_20ms : Nat → Nat := fun i => 20000000 * i

/-- A clock whose reading number `1` is exactly 5.0 s after reading number `0`
and that advances by 1 ns per reading from then on. -/
def clk_boundary : Nat → Nat := fun i => if i = 0 then 0 else 4999999999 + i

/-- A link that comes up on the third look and stays up. -/
def tel_link_up : Nat → VehicleState :=
  fun k => { connected := decide (2 ≤ k), armed := false, mode := "MANUAL" }

/-- The same telemetry with the link reported down again from the fifth look on. -/
def tel_link_lost : Nat → VehicleState :=
  fun k => { connected := decide (2 ≤ k ∧ k < 4), armed := false, mode := "MANUAL" }

/-- A vehicle in mode `MANUAL` on the first tick and in mode `OFFBOARD` from
then on, disarmed throughout. -/
def tel_mode_then_arm : Nat → VehicleState :=
  fun k => if k = 0 then { connected := true, armed := false, mode := "MANUAL" }
    else { connected := true, armed := false, mode := "OFFBOARD" }

/-- The global variables at the start of the program (static storage, zero
initialised). -/
def globals_at_start : Globals :=
  { current_state := { connected := false, armed := false, mode := "" }
    current_imudata := { orientation := { w := 0, x := 0, y := 0, z := 0 } }
    current_imu_quat := { w := 0, x := 0, y := 0, z := 0 }
    _roll := 0
    _pitch := some 0
    _yaw := 0 }

/-- An IMU message whose orientation, four `double` values, is a unit quaternion
to the precision of `double` (its squared norm is within `10^-20` of 1), close to
pitch `π/2`: about `(0.70707063, -0.00692208, 0.70707511, 0.00692789)`. -/
noncomputable def imu_near_lock : Imu :=
  { orientation :=
      { w := 1592181520235903 / 2 ^ 51
        x := -124697096747259 / 2 ^ 54
        y := 3184383194094313 / 2 ^ 52
        z := 7800111888027 / 2 ^ 50 } }

/-- An IMU message with the unit quaternion `(1/2, -1/2, 1/2, 1/2)`, at pitch
`π/2` exactly; its four values are `float` values. -/
noncomputable def imu_at_lock : Imu :=
  { orientation := { w := 1 / 2, x := -1 / 2, y := 1 / 2, z := 1 / 2 } }

/-! ## Auxiliary definitions for the proofs -/

/-- The setpoint published by an iteration that ends with `step_one = v`. -/
def published (v : Int) : Event := if v != 0 then Event.pos_pub else Event.att_pub

/-- Index of the clock reading used by the arm test of an iteration. -/
def arm_reading (cs : VehicleState) (s : LoopState) : Nat :=
  if cs.mode != "OFFBOARD" then s.now_calls + 1 else s.now_calls

/-- The mode branch is taken. -/
def mode_fires (clk : Nat → Nat) (cs : VehicleState) (s : LoopState) : Bool :=
  cs.mode != "OFFBOARD" && cooldown_elapsed (clk s.now_calls) s.last_request

/-- The arm branch is taken. -/
def arm_fires (clk : Nat → Nat) (cs : VehicleState) (s : LoopState) : Bool :=
  !mode_fires clk cs s && (!cs.armed && cooldown_elapsed (clk (arm_reading cs s)) s.last_request)

/-- The recorded request time is one of the clock readings already taken. -/
def stamped (clk : Nat → Nat) (s : LoopState) : Prop :=
  ∃ i, i < s.now_calls ∧ s.last_request = clk i

/-! ## Rotation arithmetic: lemmas -/

theorem half_mul (a : ℝ) : a * 0.5 = a / 2 := by norm_num [div_eq_mul_inv]

theorem sin_of_half (a : ℝ) : Real.sin a = 2 * Real.sin (a / 2) * Real.cos (a / 2) := by
  rw [← Real.sin_two_mul]; congr 1; ring

theorem cos_of_half (a : ℝ) : Real.cos a = Real.cos (a / 2) ^ 2 - Real.sin (a / 2) ^ 2 := by
  rw [← Real.cos_two_mul']; congr 1; ring

/-- The pair handed to `atan2f` for the roll of `from_euler r p y`. -/
theorem roll_args (r p y : ℝ) :
    2 * ((from_euler r p y).q1 * (from_euler r p y).q2
        + (from_euler r p y).q3 * (from_euler r p y).q4) = Real.sin r * Real.cos p
    ∧ 1 - 2 * ((from_euler r p y).q2 * (from_euler r p y).q2
        + (from_euler r p y).q3 * (from_euler r p y).q3) = Real.cos r * Real.cos p := by
  have hr := Real.sin_sq_add_cos_sq (r / 2)
  have hp := Real.sin_sq_add_cos_sq (p / 2)
  have hy := Real.sin_sq_add_cos_sq (y / 2)
  simp only [from_euler, half_mul]
  rw [sin_of_half r, cos_of_half r, cos_of_half p]
  constructor
  · linear_combination
      2 * Real.cos (r / 2) * Real.sin (r / 2)
        * (Real.cos (p / 2) ^ 2 - Real.sin (p / 2) ^ 2) * hy
  · linear_combination
      -2 * (Real.sin (r / 2) ^ 2 * Real.cos (p / 2) ^ 2
          + Real.cos (r / 2) ^ 2 * Real.sin (p / 2) ^ 2) * hy
        - (Real.sin (p / 2) ^ 2 + Real.cos (p / 2) ^ 2) * hr - hp

/-- The pair handed to `atan2f` for the yaw of `from_euler r p y`. -/
theorem yaw_args (r p y : ℝ) :
    2 * ((from_euler r p y).q1 * (from_euler r p y).q4
        + (from_euler r p y).q2 * (from_euler r p y).q3) = Real.sin y * Real.cos p
    ∧ 1 - 2 * ((from_euler r p y).q3 * (from_euler r p y).q3
        + (from_euler r p y).q4 * (from_euler r p y).q4) = Real.cos y * Real.cos p := by
  have hr := Real.sin_sq_add_cos_sq (r / 2)
  have hp := Real.sin_sq_add_cos_sq (p / 2)
  have hy := Real.sin_sq_add_cos_sq (y / 2)
  simp only [from_euler, half_mul]
  rw [sin_of_half y, cos_of_half y, cos_of_half p]
  constructor
  · linear_combination
      2 * Real.cos (y / 2) * Real.sin (y / 2)
        * (Real.cos (p / 2) ^ 2 - Real.sin (p / 2) ^ 2) * hr
  · linear_combination
      -2 * (Real.sin (y / 2) ^ 2 * Real.cos (p / 2) ^ 2
          + Real.cos (y / 2) ^ 2 * Real.sin (p / 2) ^ 2) * hr
        - (Real.sin (p / 2) ^ 2 + Real.cos (p / 2) ^ 2) * hy - hp

/-- The argument handed to `asin` for the pitch of `from_euler r p y`. -/
theorem pitch_arg (r p y : ℝ) :
    2 * ((from_euler r p y).q1 * (from_euler r p y).q3
        - (from_euler r p y).q4 * (from_euler r p y).q2) = Real.sin p := by
  have hr := Real.sin_sq_add_cos_sq (r / 2)
  have hy := Real.sin_sq_add_cos_sq (y / 2)
  simp only [from_euler, half_mul]
  rw [sin_of_half p]
  linear_combination
    2 * Real.cos (p / 2) * Real.sin (p / 2)
        * (Real.sin (y / 2) ^ 2 + Real.cos (y / 2) ^ 2) * hr
      + 2 * Real.cos (p / 2) * Real.sin (p / 2) * hy

/-- The angle of the point `c (cos a, sin a)` with `c > 0` is `a` itself when
`a` lies in `(-π, π]`. -/
theorem atan2f_scaled (a c : ℝ) (hc : 0 < c) (ha : a ∈ Set.Ioc (-Real.pi) Real.pi) :
    atan2f (Real.sin a * c) (Real.cos a * c) = a := by
  have h := Complex.arg_mul_cos_add_sin_mul_I hc ha
  have e : (⟨Real.cos a * c, Real.sin a * c⟩ : ℂ)
      = (c : ℂ) * (Complex.cos a + Complex.sin a * Complex.I) := by
    apply Complex.ext
    · simp [← Complex.ofReal_cos, ← Complex.ofReal_sin, mul_comm]
    · simp [← Complex.ofReal_cos, ← Complex.ofReal_sin, mul_comm]
  rw [atan2f, e, h]

theorem asin_of_mem (x : ℝ) (h : -1 ≤ x ∧ x ≤ 1) : asin x = some (Real.arcsin x) := by
  simp [asin, h]

theorem asin_of_not_mem (x : ℝ) (h : ¬ (-1 ≤ x ∧ x ≤ 1)) : asin x = none := by
  simp only [asin, if_neg h]

/-- The round trip Euler -> quaternion -> Euler in exact real arithmetic: for
roll and yaw in `(-π, π)` and pitch in `(-π/2, π/2)`, the three formulas of
`get_euler_*` applied to the quaternion of `from_euler roll pitch yaw` give back
`roll`, `pitch` and `yaw`. This is the identity the formulas rest on, not the
behaviour of the `float` code: close to pitch `±π/2` the rounding of the
products decides whether the arcsine argument stays in `[-1, 1]`. -/
theorem euler_round_trip (roll pitch yaw : ℝ)
    (hr : -Real.pi < roll ∧ roll < Real.pi)
    (hp : -(Real.pi / 2) < pitch ∧ pitch < Real.pi / 2)
    (hy : -Real.pi < yaw ∧ yaw < Real.pi) :
    get_euler_roll (from_euler roll pitch yaw).q1 (from_euler roll pitch yaw).q2
        (from_euler roll pitch yaw).q3 (from_euler roll pitch yaw).q4 = roll
    ∧ get_euler_pitch (from_euler roll pitch yaw).q1 (from_euler roll pitch yaw).q2
        (from_euler roll pitch yaw).q3 (from_euler roll pitch yaw).q4 = some pitch
    ∧ get_euler_yaw (from_euler roll pitch yaw).q1 (from_euler roll pitch yaw).q2
        (from_euler roll pitch yaw).q3 (from_euler roll pitch yaw).q4 = yaw := by
  have hc : 0 < Real.cos pitch := Real.cos_pos_of_mem_Ioo ⟨hp.1, hp.2⟩
  refine ⟨?_, ?_, ?_⟩
  · rw [get_euler_roll, (roll_args roll pitch yaw).1, (roll_args roll pitch yaw).2]
    exact atan2f_scaled roll _ hc ⟨hr.1, hr.2.le⟩
  · rw [get_euler_pitch, pitch_arg,
      asin_of_mem _ ⟨Real.neg_one_le_sin pitch, Real.sin_le_one pitch⟩,
      Real.arcsin_sin hp.1.le hp.2.le]
  · rw [get_euler_yaw, (yaw_args roll pitch yaw).1, (yaw_args roll pitch yaw).2]
    exact atan2f_scaled yaw _ hc ⟨hy.1, hy.2.le⟩

/-- The exact round trip at roll `1`, pitch `1/2` and yaw `-2` radians. -/
theorem euler_round_trip_witness :
    get_euler_roll (from_euler 1 (1 / 2) (-2)).q1 (from_euler 1 (1 / 2) (-2)).q2
        (from_euler 1 (1 / 2) (-2)).q3 (from_euler 1 (1 / 2) (-2)).q4 = 1
    ∧ get_euler_pitch (from_euler 1 (1 / 2) (-2)).q1 (from_euler 1 (1 / 2) (-2)).q2
        (from_euler 1 (1 / 2) (-2)).q3 (from_euler 1 (1 / 2) (-2)).q4 = some (1 / 2)
    ∧ get_euler_yaw (from_euler 1 (1 / 2) (-2)).q1 (from_euler 1 (1 / 2) (-2)).q2
        (from_euler 1 (1 / 2) (-2)).q3 (from_euler 1 (1 / 2) (-2)).q4 = -2 :=
  have h3 := Real.pi_gt_three
  euler_round_trip 1 (1 / 2) (-2) ⟨by linarith, by linarith⟩ ⟨by linarith, by linarith⟩
    ⟨by linarith, by linarith⟩

/-! ## The tick loop: lemmas -/

theorem pub_list (v : Int) :
    (if (v != 0) = true then [Event.pos_pub] else [Event.att_pub]) = [published v] := by
  unfold published
  split_ifs <;> rfl

theorem tick_mode (clk : Nat → Nat) (cs : VehicleState) (s : LoopState)
    (h : mode_fires clk cs s = true) :
    tick clk cs s =
      ({ last_request := clk (s.now_calls + 1), step_counter := wrap16 (s.step_counter + 1),
         step_one := s.step_one, now_calls := s.now_calls + 2 },
        [Event.set_mode_call (clk s.now_calls), published s.step_one]) := by
  simp only [mode_fires, Bool.and_eq_true] at h
  simp only [tick, h.1, h.2, if_true, pub_list, List.singleton_append]

theorem tick_arm (clk : Nat → Nat) (cs : VehicleState) (s : LoopState)
    (h : arm_fires clk cs s = true) :
    tick clk cs s =
      ({ last_request := clk (arm_reading cs s + 1), step_counter := wrap16 (s.step_counter + 1),
         step_one := s.step_one, now_calls := arm_reading cs s + 2 },
        [Event.arming_call (clk (arm_reading cs s)), published s.step_one]) := by
  simp only [arm_fires, mode_fires, Bool.and_eq_true, Bool.not_eq_true'] at h
  obtain ⟨h1, h2, h3⟩ := h
  cases hm : (cs.mode != "OFFBOARD")
  · simp only [arm_reading, hm, Bool.false_eq_true, if_false] at h3 ⊢
    simp only [tick, hm, h2, h3, Bool.false_eq_true, if_false, if_true, Bool.not_false, pub_list,
      List.singleton_append]
  · simp only [hm, Bool.true_and] at h1
    simp only [arm_reading, hm, if_true] at h3 ⊢
    simp only [tick, hm, h1, h2, h3, Bool.false_eq_true, if_false, if_true, Bool.not_false,
      pub_list, List.singleton_append]

theorem tick_idle (clk : Nat → Nat) (cs : VehicleState) (s : LoopState)
    (hm : mode_fires clk cs s = false) (ha : arm_fires clk cs s = false) :
    tick clk cs s =
      ({ last_request := s.last_request, step_counter := wrap16 (s.step_counter + 1),
         step_one := if s.step_counter < 400 then 1 else 0,
         now_calls := if !cs.armed then arm_reading cs s + 1 else arm_reading cs s },
        [published (if s.step_counter < 400 then 1 else 0)]) := by
  simp only [arm_fires, hm, Bool.not_false, Bool.true_and] at ha
  cases hmd : (cs.mode != "OFFBOARD") <;> cases hac : cs.armed <;>
    simp only [mode_fires, arm_reading, hmd, hac, Bool.true_and, Bool.false_and, Bool.not_false,
      Bool.not_true, Bool.false_eq_true, if_true, if_false] at hm ha ⊢ <;>
    simp only [tick, hmd, hac, hm, ha, Bool.false_eq_true, if_false, if_true, Bool.not_false,
      Bool.not_true, pub_list, List.nil_append]

/-- Every iteration takes exactly one of the three branches. -/
theorem tick_branches (clk : Nat → Nat) (cs : VehicleState) (s : LoopState) :
    mode_fires clk cs s = true
    ∨ (mode_fires clk cs s = false ∧ arm_fires clk cs s = true)
    ∨ (mode_fires clk cs s = false ∧ arm_fires clk cs s = false) := by
  cases hm : mode_fires clk cs s <;> cases ha : arm_fires clk cs s <;> simp

theorem cooldown_elapsed_iff (now last : Nat) :
    cooldown_elapsed now last = true ↔ last + 5000000000 < now := by
  simp only [cooldown_elapsed, decide_eq_true_eq]
  omega

theorem wrap16_succ (x : Int) : wrap16 (wrap16 x + 1) = wrap16 (x + 1) := by
  unfold wrap16
  omega

theorem wrap16_of_range (x : Int) (h0 : -32768 ≤ x) (h1 : x < 32768) : wrap16 x = x := by
  unfold wrap16
  omega

theorem tick_step_counter (clk : Nat → Nat) (cs : VehicleState) (s : LoopState) :
    (tick clk cs s).1.step_counter = wrap16 (s.step_counter + 1) := by
  rcases tick_branches clk cs s with h | ⟨h1, h2⟩ | ⟨h1, h2⟩
  · rw [tick_mode clk cs s h]
  · rw [tick_arm clk cs s h2]
  · rw [tick_idle clk cs s h1 h2]

/-- The counter is incremented on every iteration, whatever the branch: at the
start of iteration `n` it is `n` wrapped to 16 bits. -/
theorem step_counter_at (clk : Nat → Nat) (tel : Nat → VehicleState) (n : Nat) :
    (state_at clk tel n).step_counter = wrap16 n := by
  induction n with
  | zero => rfl
  | succ k ih =>
    rw [state_at, tick_step_counter, ih, wrap16_succ]
    push_cast
    rfl

theorem arm_reading_ge (cs : VehicleState) (s : LoopState) : s.now_calls ≤ arm_reading cs s := by
  unfold arm_reading
  split_ifs <;> omega

theorem tick_stamped (clk : Nat → Nat) (cs : VehicleState) (s : LoopState)
    (h : stamped clk s) : stamped clk (tick clk cs s).1 := by
  have hr := arm_reading_ge cs s
  rcases tick_branches clk cs s with h1 | ⟨h1, h2⟩ | ⟨h1, h2⟩
  · rw [tick_mode clk cs s h1]
    exact ⟨s.now_calls + 1, by simp, rfl⟩
  · rw [tick_arm clk cs s h2]
    exact ⟨arm_reading cs s + 1, by simp, rfl⟩
  · rw [tick_idle clk cs s h1 h2]
    obtain ⟨i, hi, e⟩ := h
    refine ⟨i, ?_, e⟩
    simp only
    split_ifs <;> omega

theorem state_at_stamped (clk : Nat → Nat) (tel : Nat → VehicleState) (n : Nat) :
    stamped clk (state_at clk tel n) := by
  induction n with
  | zero => exact ⟨0, by simp [state_at, init], rfl⟩
  | succ k ih => exact tick_stamped clk (tel k) _ ih

/-- With a non-decreasing clock, the recorded request time never decreases
over an iteration. -/
theorem tick_last_request_le (clk : Nat → Nat) (hclk : Monotone clk) (cs : VehicleState)
    (s : LoopState) (h : stamped clk s) : s.last_request ≤ (tick clk cs s).1.last_request := by
  have hr := arm_reading_ge cs s
  obtain ⟨i, hi, e⟩ := h
  rcases tick_branches clk cs s with h1 | ⟨h1, h2⟩ | ⟨h1, h2⟩
  · rw [tick_mode clk cs s h1, e]
    exact hclk (by omega)
  · rw [tick_arm clk cs s h2, e]
    exact hclk (by omega)
  · rw [tick_idle clk cs s h1 h2]

theorem last_request_mono (clk : Nat → Nat) (hclk : Monotone clk) (tel : Nat → VehicleState)
    (i j : Nat) (hij : i ≤ j) :
    (state_at clk tel i).last_request ≤ (state_at clk tel j).last_request := by
  induction j with
  | zero =>
    have : i = 0 := by omega
    subst this
    exact le_refl _
  | succ k ih =>
    rcases Nat.lt_or_ge i (k + 1) with h | h
    · exact le_trans (ih (by omega))
        (tick_last_request_le clk hclk (tel k) _ (state_at_stamped clk tel k))
    · have : i = k + 1 := by omega
      subst this
      exact le_refl _

/-- A service call of an iteration was evaluated more than 5.0 s after the
recorded request time, and the time recorded by the iteration is a later
reading. -/
theorem tick_request_bounds (clk : Nat → Nat) (hclk : Monotone clk) (cs : VehicleState)
    (s : LoopState) (e : Event) (t : Nat) (he : e ∈ (tick clk cs s).2)
    (ht : e.request_time = some t) :
    s.last_request + 5000000000 < t ∧ t ≤ (tick clk cs s).1.last_request := by
  rcases tick_branches clk cs s with h1 | ⟨h1, h2⟩ | ⟨h1, h2⟩
  · rw [tick_mode clk cs s h1] at he ⊢
    simp only [mode_fires, Bool.and_eq_true, cooldown_elapsed_iff] at h1
    simp only [List.mem_cons, List.mem_singleton, List.not_mem_nil, or_false] at he
    rcases he with rfl | rfl
    · simp only [Event.request_time, Option.some.injEq] at ht
      subst ht
      exact ⟨h1.2, hclk (by omega)⟩
    · unfold published at ht
      split_ifs at ht <;> simp [Event.request_time] at ht
  · rw [tick_arm clk cs s h2] at he ⊢
    simp only [arm_fires, Bool.and_eq_true, cooldown_elapsed_iff] at h2
    simp only [List.mem_cons, List.mem_singleton, List.not_mem_nil, or_false] at he
    rcases he with rfl | rfl
    · simp only [Event.request_time, Option.some.injEq] at ht
      subst ht
      exact ⟨h2.2.2, hclk (by omega)⟩
    · unfold published at ht
      split_ifs at ht <;> simp [Event.request_time] at ht
  · rw [tick_idle clk cs s h1 h2] at he
    simp only [List.mem_singleton] at he
    subst he
    unfold published at ht
    split_ifs at ht <;> simp [Event.request_time] at ht

/-- Two service calls of either kind on different iterations were evaluated
more than 5.0 s apart when the clock is non-decreasing. -/
theorem requests_spaced (clk : Nat → Nat) (hclk : Monotone clk) (tel : Nat → VehicleState)
    (i j : Nat) (hij : i < j) (ei ej : Event) (ti tj : Nat)
    (hi : ei ∈ events_at clk tel i) (hj : ej ∈ events_at clk tel j)
    (hti : ei.request_time = some ti) (htj : ej.request_time = some tj) :
    ti + 5000000000 < tj := by
  have b1 := (tick_request_bounds clk hclk (tel i) _ ei ti hi hti).2
  have b2 := (tick_request_bounds clk hclk (tel j) _ ej tj hj htj).1
  have b3 := last_request_mono clk hclk tel (i + 1) j hij
  rw [state_at] at b3
  omega

theorem published_cases (v : Int) :
    published v = Event.pos_pub ∨ published v = Event.att_pub := by
  unfold published
  split_ifs
  · exact Or.inl rfl
  · exact Or.inr rfl

/-- An iteration makes at most one service call. -/
theorem tick_one_request (clk : Nat → Nat) (cs : VehicleState) (s : LoopState) :
    ((tick clk cs s).2.filter Event.is_request).length ≤ 1 := by
  rcases tick_branches clk cs s with h1 | ⟨h1, h2⟩ | ⟨h1, h2⟩
  · rw [tick_mode clk cs s h1]
    rcases published_cases s.step_one with e | e <;> rw [e] <;>
      simp [List.filter, Event.is_request]
  · rw [tick_arm clk cs s h2]
    rcases published_cases s.step_one with e | e <;> rw [e] <;>
      simp [List.filter, Event.is_request]
  · rw [tick_idle clk cs s h1 h2]
    rcases published_cases (if s.step_counter < 400 then 1 else 0) with e | e <;> rw [e] <;>
      simp [List.filter, Event.is_request]

/-- The setpoint an iteration publishes is the one selected by the value of
`step_one` at the end of its `if` block; it is the last event of the iteration
and the only one that is a publication. -/
theorem tick_publication (clk : Nat → Nat) (cs : VehicleState) (s : LoopState) :
    (Event.pos_pub ∈ (tick clk cs s).2 ↔ (tick clk cs s).1.step_one ≠ 0)
    ∧ (Event.att_pub ∈ (tick clk cs s).2 ↔ (tick clk cs s).1.step_one = 0) := by
  have hp : ∀ v : Int, (Event.pos_pub = published v ↔ v ≠ 0)
      ∧ (Event.att_pub = published v ↔ v = 0) := by
    intro v
    unfold published
    by_cases hv : v = 0 <;> simp [hv]
  rcases tick_branches clk cs s with h1 | ⟨h1, h2⟩ | ⟨h1, h2⟩
  · rw [tick_mode clk cs s h1]
    simp [hp]
  · rw [tick_arm clk cs s h2]
    simp [hp]
  · rw [tick_idle clk cs s h1 h2]
    simp [hp]

/-- An iteration that changes `step_one` makes no service call, and found
`step_counter < 400` exactly when the new value is `1`. -/
theorem tick_step_one (clk : Nat → Nat) (cs : VehicleState) (s : LoopState) :
    ((tick clk cs s).1.step_one = s.step_one
      ∧ (mode_fires clk cs s = true ∨ arm_fires clk cs s = true))
    ∨ ((tick clk cs s).1.step_one = (if s.step_counter < 400 then 1 else 0)
      ∧ mode_fires clk cs s = false ∧ arm_fires clk cs s = false
      ∧ (tick clk cs s).2 = [published (if s.step_counter < 400 then 1 else 0)]) := by
  rcases tick_branches clk cs s with h1 | ⟨h1, h2⟩ | ⟨h1, h2⟩
  · rw [tick_mode clk cs s h1]
    exact Or.inl ⟨rfl, Or.inl h1⟩
  · rw [tick_arm clk cs s h2]
    exact Or.inl ⟨rfl, Or.inr h2⟩
  · rw [tick_idle clk cs s h1 h2]
    exact Or.inr ⟨rfl, h1, h2, rfl⟩

theorem wrap16_nat_small (n : Nat) (h : n < 32768) : wrap16 (n : Int) = (n : Int) :=
  wrap16_of_range _ (by omega) (by omega)

/-- During the first 400 iterations `step_one` keeps its initial value `1`. -/
theorem step_one_at (clk : Nat → Nat) (tel : Nat → VehicleState) (n : Nat) (hn : n ≤ 400) :
    (state_at clk tel n).step_one = 1 := by
  induction n with
  | zero => rfl
  | succ k ih =>
    have hk := ih (by omega)
    have hc := step_counter_at clk tel k
    rw [wrap16_nat_small k (by omega)] at hc
    rw [state_at]
    rcases tick_step_one clk (tel k) (state_at clk tel k) with ⟨e, _⟩ | ⟨e, _⟩
    · rw [e, hk]
    · rw [e, hc, if_pos (by omega)]

/-- Each of the first 400 iterations publishes the position setpoint and not
the attitude setpoint, whatever the telemetry and the clock. -/
theorem first_ticks_position (clk : Nat → Nat) (tel : Nat → VehicleState) (k : Nat)
    (hk : k < 400) :
    Event.pos_pub ∈ events_at clk tel k ∧ Event.att_pub ∉ events_at clk tel k := by
  have h1 := step_one_at clk tel (k + 1) (by omega)
  rw [state_at] at h1
  have hp := tick_publication clk (tel k) (state_at clk tel k)
  unfold events_at
  rw [hp.1, hp.2, h1]
  exact ⟨by decide, by decide⟩

/-- An iteration that finds the vehicle in mode `OFFBOARD` and armed reads no
clock, makes no service call and publishes by the counter alone. -/
theorem tick_offboard_armed (clk : Nat → Nat) (cs : VehicleState) (s : LoopState)
    (hm : cs.mode = "OFFBOARD") (ha : cs.armed = true) :
    (tick clk cs s).2 = [published (if s.step_counter < 400 then 1 else 0)] := by
  have h1 : mode_fires clk cs s = false := by simp [mode_fires, hm]
  have h2 : arm_fires clk cs s = false := by simp [arm_fires, ha]
  rw [tick_idle clk cs s h1 h2]

/-- The events of iteration `n` when it finds the vehicle in mode `OFFBOARD`
and armed. -/
theorem events_offboard_armed (clk : Nat → Nat) (tel : Nat → VehicleState) (n : Nat)
    (hm : (tel n).mode = "OFFBOARD") (ha : (tel n).armed = true) :
    events_at clk tel n = [if wrap16 n < 400 then Event.pos_pub else Event.att_pub] := by
  unfold events_at
  rw [tick_offboard_armed clk (tel n) _ hm ha, step_counter_at]
  unfold published
  split_ifs <;> simp_all

theorem wrap16_32768 : wrap16 ((32768 : Nat) : Int) = -32768 := by decide

/-- With the frozen clock no cool-down ever elapses. -/
theorem frozen_idle (cs : VehicleState) (s : LoopState) :
    mode_fires clk_frozen cs s = false ∧ arm_fires clk_frozen cs s = false := by
  have h : ∀ i l, cooldown_elapsed (clk_frozen i) l = false := by
    intro i l
    rw [← Bool.not_eq_true, cooldown_elapsed_iff]
    simp [clk_frozen]
  simp [mode_fires, arm_fires, h]

/-- The events of iteration `n` under the frozen clock. -/
theorem events_frozen (tel : Nat → VehicleState) (n : Nat) :
    events_at clk_frozen tel n = [if wrap16 n < 400 then Event.pos_pub else Event.att_pub] := by
  unfold events_at
  rw [tick_idle clk_frozen (tel n) _ (frozen_idle _ _).1 (frozen_idle _ _).2, step_counter_at]
  unfold published
  split_ifs <;> simp_all

theorem clk_6s_monotone : Monotone clk_6s :=
  fun _ _ h => Nat.mul_le_mul_left _ h

theorem clk_boundary_monotone : Monotone clk_boundary := by
  intro a b h
  unfold clk_boundary
  split_ifs <;> omega

/-- Before the counter wraps the attitude phase is kept: once an iteration `m`
has published the attitude setpoint, every iteration `n` with `m ≤ n < 32768`
publishes the attitude setpoint and not the position setpoint, whatever the
telemetry and the clock. -/
theorem attitude_hold_before_wrap (clk : Nat → Nat) (tel : Nat → VehicleState) (m n : Nat)
    (hm : Event.att_pub ∈ events_at clk tel m) (hmn : m ≤ n) (hn : n < 32768) :
    Event.att_pub ∈ events_at clk tel n ∧ Event.pos_pub ∉ events_at clk tel n := by
  have h400 : 400 ≤ m := by
    by_contra hlt
    exact (first_ticks_position clk tel m (by omega)).2 hm
  have key : ∀ d, m + d < 32768 → (state_at clk tel (m + d + 1)).step_one = 0 := by
    intro d
    induction d with
    | zero =>
      intro _
      have := (tick_publication clk (tel m) (state_at clk tel m)).2.1 hm
      rw [Nat.add_zero, state_at]
      exact this
    | succ d ih =>
      intro hd
      have hprev := ih (by omega)
      have hc := step_counter_at clk tel (m + d + 1)
      rw [wrap16_nat_small _ (by omega)] at hc
      rw [state_at]
      rcases tick_step_one clk (tel (m + d + 1)) (state_at clk tel (m + d + 1))
        with ⟨e, _⟩ | ⟨e, _⟩
      · rw [show m + (d + 1) = m + d + 1 from rfl, e, hprev]
      · rw [show m + (d + 1) = m + d + 1 from rfl, e, hc, if_neg (by push_cast; omega)]
  obtain ⟨d, rfl⟩ : ∃ d, n = m + d := ⟨n - m, by omega⟩
  have hz := key d hn
  rw [state_at] at hz
  have hp := tick_publication clk (tel (m + d)) (state_at clk tel (m + d))
  unfold events_at
  rw [hp.1, hp.2, hz]
  exact ⟨rfl, by decide⟩

theorem mode_fires_iff (clk : Nat → Nat) (cs : VehicleState) (s : LoopState) :
    mode_fires clk cs s = true
      ↔ cs.mode ≠ "OFFBOARD" ∧ (clk s.now_calls : Int) - (s.last_request : Int) > 5000000000 := by
  simp [mode_fires, cooldown_elapsed]

theorem published_ne_set_mode (v : Int) (t : Nat) : Event.set_mode_call t ≠ published v := by
  rcases published_cases v with e | e <;> rw [e] <;> exact fun h => Event.noConfusion h

theorem published_ne_arming (v : Int) (t : Nat) : Event.arming_call t ≠ published v := by
  rcases published_cases v with e | e <;> rw [e] <;> exact fun h => Event.noConfusion h

/-- The mode-change requests among the events of an iteration. -/
theorem set_mode_mem_tick (clk : Nat → Nat) (cs : VehicleState) (s : LoopState) (t : Nat) :
    Event.set_mode_call t ∈ (tick clk cs s).2
      ↔ mode_fires clk cs s = true ∧ t = clk s.now_calls := by
  rcases tick_branches clk cs s with h1 | ⟨h1, h2⟩ | ⟨h1, h2⟩
  · rw [tick_mode clk cs s h1]
    simp [h1, published_ne_set_mode]
  · rw [tick_arm clk cs s h2]
    simp [h1, published_ne_set_mode]
  · rw [tick_idle clk cs s h1 h2]
    simp [h1, published_ne_set_mode]

/-- The arm requests among the events of an iteration. -/
theorem arming_mem_tick (clk : Nat → Nat) (cs : VehicleState) (s : LoopState) (t : Nat) :
    Event.arming_call t ∈ (tick clk cs s).2
      ↔ arm_fires clk cs s = true ∧ t = clk (arm_reading cs s) := by
  rcases tick_branches clk cs s with h1 | ⟨h1, h2⟩ | ⟨h1, h2⟩
  · have h2 : arm_fires clk cs s = false := by simp [arm_fires, h1]
    rw [tick_mode clk cs s h1]
    simp [h2, published_ne_arming]
  · rw [tick_arm clk cs s h2]
    simp [h2, published_ne_arming]
  · rw [tick_idle clk cs s h1 h2]
    simp [h2, published_ne_arming]

/-- What the two tests of an iteration that makes no service call have found. -/
theorem idle_conditions (clk : Nat → Nat) (cs : VehicleState) (s : LoopState)
    (h1 : mode_fires clk cs s = false) (h2 : arm_fires clk cs s = false) :
    (cs.mode = "OFFBOARD"
      ∨ ¬ ((clk s.now_calls : Int) - (s.last_request : Int) > 5000000000))
    ∧ (cs.armed = true
      ∨ ¬ ((clk (if cs.mode = "OFFBOARD" then s.now_calls else s.now_calls + 1) : Int)
            - (s.last_request : Int) > 5000000000)) := by
  constructor
  · by_contra hc
    push_neg at hc
    have := (mode_fires_iff clk cs s).2 ⟨hc.1, hc.2⟩
    rw [h1] at this
    exact Bool.noConfusion this
  · by_contra hc
    push_neg at hc
    obtain ⟨ha, ht⟩ := hc
    have ha2 : cs.armed = false := by simpa using ha
    have : arm_fires clk cs s = true := by
      simp only [arm_fires, h1, ha2, arm_reading, Bool.not_false, Bool.true_and,
        cooldown_elapsed, decide_eq_true_eq]
      by_cases hm : cs.mode = "OFFBOARD"
      · simpa [hm] using ht
      · simpa [hm] using ht
    rw [h2] at this
    exact Bool.noConfusion this

/-- An iteration reads only the mode and the armed flag of the cached state. -/
theorem tick_congr (clk : Nat → Nat) (cs cs2 : VehicleState) (s : LoopState)
    (hm : cs2.mode = cs.mode) (ha : cs2.armed = cs.armed) :
    tick clk cs2 s = tick clk cs s := by
  simp only [tick, hm, ha]

theorem state_at_congr (clk : Nat → Nat) (tel tel2 : Nat → VehicleState)
    (h : ∀ i, (tel2 i).mode = (tel i).mode ∧ (tel2 i).armed = (tel i).armed) (n : Nat) :
    state_at clk tel2 n = state_at clk tel n := by
  induction n with
  | zero => rfl
  | succ k ih => rw [state_at, state_at, ih, tick_congr clk (tel k) (tel2 k) _ (h k).1 (h k).2]

theorem events_at_congr (clk : Nat → Nat) (tel tel2 : Nat → VehicleState)
    (h : ∀ i, (tel2 i).mode = (tel i).mode ∧ (tel2 i).armed = (tel i).armed) (n : Nat) :
    events_at clk tel2 n = events_at clk tel n := by
  rw [events_at, events_at, state_at_congr clk tel tel2 h n,
    tick_congr clk (tel n) (tel2 n) _ (h n).1 (h n).2]

/-- The wait loop ends at the first iteration, from `k` on, that finds the
cached state connected. -/
theorem wait_for_link_spec (tel : Nat → VehicleState) (fuel k r : Nat)
    (h : wait_for_link tel fuel k = some r) :
    k ≤ r ∧ (tel r).connected = true ∧ ∀ i, k ≤ i → i < r → (tel i).connected = false := by
  induction fuel generalizing k with
  | zero =>
    rw [wait_for_link] at h
    split_ifs at h with hc
    cases h
    exact ⟨le_refl _, hc, fun i h1 h2 => absurd h2 (by omega)⟩
  | succ f ih =>
    rw [wait_for_link] at h
    split_ifs at h with hc
    · cases h
      exact ⟨le_refl _, hc, fun i h1 h2 => absurd h2 (by omega)⟩
    · obtain ⟨h1, h2, h3⟩ := ih (k + 1) h
      refine ⟨by omega, h2, ?_⟩
      intro i hi hr
      rcases Nat.eq_or_lt_of_le hi with e | e
      · subst e
        simpa using hc
      · exact h3 i (by omega) hr

/-- The wait loop depends on the connected flags up to its exit only. -/
theorem wait_for_link_congr (tel tel2 : Nat → VehicleState) (fuel k r : Nat)
    (h : wait_for_link tel fuel k = some r)
    (hc : ∀ i, i ≤ r → (tel2 i).connected = (tel i).connected) :
    wait_for_link tel2 fuel k = some r := by
  induction fuel generalizing k with
  | zero =>
    rw [wait_for_link] at h ⊢
    split_ifs at h with h1
    cases h
    rw [hc _ (le_refl _), if_pos h1]
  | succ f ih =>
    have hk := (wait_for_link_spec tel (f + 1) k r h).1
    rw [wait_for_link] at h ⊢
    rw [hc k hk]
    split_ifs at h ⊢ with h1
    · exact h
    · exact ih (k + 1) h

/-- Every event of an iteration that carries a clock reading was evaluated more
than 5.0 s after the reading taken before the loop. -/
theorem request_after_entry (clk : Nat → Nat) (hclk : Monotone clk) (tel : Nat → VehicleState)
    (n : Nat) (e : Event) (t : Nat) (he : e ∈ events_at clk tel n)
    (ht : e.request_time = some t) : clk 0 + 5000000000 < t := by
  have b1 := (tick_request_bounds clk hclk (tel n) _ e t he ht).1
  have b2 := last_request_mono clk hclk tel 0 n (Nat.zero_le n)
  have b3 : (state_at clk tel 0).last_request = clk 0 := rfl
  omega

/-- The two sums of squares behind the range of the arcsine argument. -/
theorem pitch_arg_bounds (w x y z : ℝ) (h : w ^ 2 + x ^ 2 + y ^ 2 + z ^ 2 = 1) :
    -1 ≤ 2 * (w * y - z * x) ∧ 2 * (w * y - z * x) ≤ 1 := by
  constructor
  · nlinarith [sq_nonneg (w + y), sq_nonneg (x - z)]
  · nlinarith [sq_nonneg (w - y), sq_nonneg (x + z)]

theorem att_quat_eq : att_quat = { q1 := 1, q2 := 0, q3 := 0, q4 := 0 } := by
  simp [att_quat, from_euler, roll_deg, pitch_deg, yaw_deg]

/-! ## The conversion to `float`: lemmas -/

theorem int_log_two_eq (r : ℝ) (k : ℤ) (h1 : (2 : ℝ) ^ k ≤ r) (h2 : r < (2 : ℝ) ^ (k + 1)) :
    Int.log 2 r = k := by
  have hr : 0 < r := lt_of_lt_of_le (zpow_pos (by norm_num) k) h1
  have a : k ≤ Int.log 2 r := (Int.zpow_le_iff_le_log (by norm_num) hr).1 (by exact_mod_cast h1)
  have b : Int.log 2 r < k + 1 :=
    (Int.lt_zpow_iff_log_lt (by norm_num) hr).1 (by exact_mod_cast h2)
  omega

theorem round_half_even_eq (t : ℝ) (n : ℤ) (h : |t - n| < 1 / 2) : round_half_even t = n := by
  rw [abs_lt] at h
  have hr : round t = n := by
    rw [round_eq, Int.floor_eq_iff]
    constructor <;> linarith
  unfold round_half_even
  rw [if_neg, hr]
  intro hf
  have e : t = ⌊t⌋ + 1 / 2 := by
    have := Int.floor_add_fract t
    linarith
  have hlt : ((⌊t⌋ - n : ℤ) : ℝ) < 0 ∧ (-1 : ℝ) < ((⌊t⌋ - n : ℤ) : ℝ) := by
    push_cast
    constructor <;> linarith
  have h1 : (⌊t⌋ - n : ℤ) < 0 := by exact_mod_cast hlt.1
  have h2 : (-1 : ℤ) < (⌊t⌋ - n : ℤ) := by exact_mod_cast hlt.2
  omega

/-- The value of `to_float` at an argument of the normal range: with
`2^k ≤ |x| < 2^(k+1)` it is the multiple `n 2^(k-23)` of the quantum that is
less than half a quantum away from `x`. -/
theorem to_float_eval (x : ℝ) (k n : ℤ) (hk : -126 ≤ k) (h1 : (2 : ℝ) ^ k ≤ |x|)
    (h2 : |x| < (2 : ℝ) ^ (k + 1)) (hn : |x / 2 ^ (k - 23) - n| < 1 / 2) :
    to_float x = n * 2 ^ (k - 23) := by
  unfold to_float
  rw [int_log_two_eq |x| k h1 h2, max_eq_left hk, round_half_even_eq _ n hn]

theorem to_float_half : to_float (1 / 2) = 1 / 2 := by
  rw [to_float_eval _ (-1) 8388608 (by norm_num) (by rw [abs_of_pos (by norm_num)]; norm_num)
    (by rw [abs_of_pos (by norm_num)]; norm_num) (by rw [abs_lt]; norm_num)]
  norm_num

theorem to_float_neg_half : to_float (-1 / 2) = -1 / 2 := by
  rw [to_float_eval _ (-1) (-8388608) (by norm_num)
    (by rw [abs_of_neg (by norm_num)]; norm_num)
    (by rw [abs_of_neg (by norm_num)]; norm_num) (by rw [abs_lt]; norm_num)]
  norm_num

/-- The four orientation values of `imu_near_lock` converted to `float`. -/
theorem near_lock_floats :
    to_float (1592181520235903 / 2 ^ 51) = 11862677 / 2 ^ 24
    ∧ to_float (-124697096747259 / 2 ^ 54) = -3716263 / 2 ^ 29
    ∧ to_float (3184383194094313 / 2 ^ 52) = 370711 / 2 ^ 19
    ∧ to_float (7800111888027 / 2 ^ 50) = 14877533 / 2 ^ 31 := by
  refine ⟨?_, ?_, ?_, ?_⟩
  · rw [to_float_eval _ (-1) 11862677 (by norm_num)
      (by rw [abs_of_pos (by norm_num)]; norm_num)
      (by rw [abs_of_pos (by norm_num)]; norm_num) (by rw [abs_lt]; norm_num)]
    norm_num
  · rw [to_float_eval _ (-8) (-14865052) (by norm_num)
      (by rw [abs_of_neg (by norm_num)]; norm_num)
      (by rw [abs_of_neg (by norm_num)]; norm_num) (by rw [abs_lt]; norm_num)]
    norm_num
  · rw [to_float_eval _ (-1) 11862752 (by norm_num)
      (by rw [abs_of_pos (by norm_num)]; norm_num)
      (by rw [abs_of_pos (by norm_num)]; norm_num) (by rw [abs_lt]; norm_num)]
    norm_num
  · rw [to_float_eval _ (-8) 14877533 (by norm_num)
      (by rw [abs_of_pos (by norm_num)]; norm_num)
      (by rw [abs_of_pos (by norm_num)]; norm_num) (by rw [abs_lt]; norm_num)]
    norm_num

/-! ## The callbacks: lemmas -/

theorem to_euler_state_cb (st : VehicleState) (g : Globals) :
    to_euler (state_cb st g) = to_euler g := rfl

theorem euler_derived_imu_cb (msg : Imu) (g : Globals) : euler_derived (imu_cb msg g) :=
  ⟨rfl, rfl, rfl, rfl⟩

theorem euler_derived_deliver (c : Callback) (g : Globals) (h : euler_derived g) :
    euler_derived (deliver c g) := by
  cases c with
  | state st => exact h
  | imu msg => exact euler_derived_imu_cb msg g

theorem euler_derived_deliver_all (cs : List Callback) (g : Globals) (h : euler_derived g) :
    euler_derived (deliver_all cs g) := by
  induction cs generalizing g with
  | nil => exact h
  | cons c cs ih => exact ih (deliver c g) (euler_derived_deliver c g h)

/-! ## The claims -/

/-- C2. Unit norm: for every real roll, pitch and yaw the quaternion written by
`from_euler` satisfies `q1^2 + q2^2 + q3^2 + q4^2 = 1`, with no renormalisation
step in `from_euler`. -/
theorem from_euler_unit_norm (roll pitch yaw : ℝ) :
    (from_euler roll pitch yaw).q1 ^ 2 + (from_euler roll pitch yaw).q2 ^ 2
      + (from_euler roll pitch yaw).q3 ^ 2 + (from_euler roll pitch yaw).q4 ^ 2 = 1 := by
  have hr := Real.sin_sq_add_cos_sq (roll * 0.5)
  have hp := Real.sin_sq_add_cos_sq (pitch * 0.5)
  have hy := Real.sin_sq_add_cos_sq (yaw * 0.5)
  simp only [from_euler]
  linear_combination
    (Real.sin (pitch * 0.5) ^ 2 + Real.cos (pitch * 0.5) ^ 2)
        * (Real.sin (yaw * 0.5) ^ 2 + Real.cos (yaw * 0.5) ^ 2) * hr
      + (Real.sin (yaw * 0.5) ^ 2 + Real.cos (yaw * 0.5) ^ 2) * hp + hy

/-- C3, counterexample. At the malformed quaternion `(w, x, y, z) = (1, 0, 1, 0)`
the arcsine argument is `2`; `get_euler_pitch` hands it to `asin` unclamped and
the result is the domain error, not `asin (clamp 2) = π / 2`. -/
theorem get_euler_pitch_unclamped :
    2 * ((1 : ℝ) * 1 - 0 * 0) = 2
    ∧ get_euler_pitch 1 0 1 0 = none
    ∧ get_euler_pitch 1 0 1 0 ≠ some (Real.arcsin (max (-1) (min (2 * ((1 : ℝ) * 1 - 0 * 0)) 1))) := by
  have h : get_euler_pitch 1 0 1 0 = none := by
    rw [get_euler_pitch]
    apply asin_of_not_mem
    norm_num
  refine ⟨by norm_num, h, ?_⟩
  rw [h]
  exact fun e => Option.noConfusion e

/-- C3, amended. `get_euler_pitch` has no clamp: it hands `2 (w y - z x)` to
`asin` as it is. For a quaternion with components in `[-1, 1]`: when the
argument lies in `[-1, 1]` the result is its arcsine, which is the arcsine of
the clamped argument and lies in `[-π/2, π/2]`; when the argument is beyond
`±(1 + 10^-6)`, as for a malformed quaternion, the result is the domain error
and not the arcsine of the clamped argument. The bound on the components and
the margin of `10^-6` keep the statement to the inputs on which the rounding of
the `float` products cannot change the side of `±1` the argument is on. -/
theorem get_euler_pitch_no_clamp (w x y z : ℝ)
    (_hb : |w| ≤ 1 ∧ |x| ≤ 1 ∧ |y| ≤ 1 ∧ |z| ≤ 1) :
    ((-1 ≤ 2 * (w * y - z * x) ∧ 2 * (w * y - z * x) ≤ 1) →
      get_euler_pitch w x y z = some (Real.arcsin (2 * (w * y - z * x)))
      ∧ get_euler_pitch w x y z
          = some (Real.arcsin (max (-1) (min (2 * (w * y - z * x)) 1)))
      ∧ -(Real.pi / 2) ≤ Real.arcsin (2 * (w * y - z * x))
      ∧ Real.arcsin (2 * (w * y - z * x)) ≤ Real.pi / 2)
    ∧ (1 + 1 / 1000000 ≤ |2 * (w * y - z * x)| →
      get_euler_pitch w x y z = none
      ∧ get_euler_pitch w x y z
          ≠ some (Real.arcsin (max (-1) (min (2 * (w * y - z * x)) 1)))) := by
  constructor
  · intro h
    have e : get_euler_pitch w x y z = some (Real.arcsin (2 * (w * y - z * x))) := by
      rw [get_euler_pitch, asin_of_mem _ h]
    refine ⟨e, ?_, Real.neg_pi_div_two_le_arcsin _, Real.arcsin_le_pi_div_two _⟩
    rw [e, min_eq_left h.2, max_eq_right h.1]
  · intro h
    have e : get_euler_pitch w x y z = none := by
      rw [get_euler_pitch]
      apply asin_of_not_mem
      rintro ⟨h1, h2⟩
      have := abs_le.2 ⟨h1, h2⟩
      linarith
    refine ⟨e, ?_⟩
    rw [e]
    exact fun c => Option.noConfusion c

/-- The amended C3 at the unit quaternion `(1/2, -1/2, 1/2, 1/2)`, whose
arcsine argument is `1`, and at the malformed quaternion `(1, 0, 3/4, 0)`, whose
arcsine argument is `3/2`. -/
theorem get_euler_pitch_no_clamp_witness :
    (get_euler_pitch (1 / 2) (-1 / 2) (1 / 2) (1 / 2)
        = some (Real.arcsin (2 * ((1 / 2 : ℝ) * (1 / 2) - 1 / 2 * (-1 / 2))))
      ∧ 2 * ((1 / 2 : ℝ) * (1 / 2) - 1 / 2 * (-1 / 2)) = 1)
    ∧ (get_euler_pitch 1 0 (3 / 4) 0 = none
      ∧ get_euler_pitch 1 0 (3 / 4) 0
          ≠ some (Real.arcsin (max (-1) (min (2 * ((1 : ℝ) * (3 / 4) - 0 * 0)) 1)))) :=
  ⟨⟨((get_euler_pitch_no_clamp (1 / 2) (-1 / 2) (1 / 2) (1 / 2)
        ⟨by norm_num [abs_le], by norm_num [abs_le], by norm_num [abs_le],
          by norm_num [abs_le]⟩).1 ⟨by norm_num, by norm_num⟩).1, by norm_num⟩,
    (get_euler_pitch_no_clamp 1 0 (3 / 4) 0
      ⟨by norm_num, by norm_num, by norm_num [abs_le], by norm_num⟩).2
      (by rw [abs_of_pos (by norm_num)]; norm_num)⟩

/-- C4. Cool-down invariant: with non-decreasing clock readings, whatever the
telemetry, two mode-change requests, and likewise two arm requests, issued on
different iterations are not less than 5.0 s apart, the time of a request being
the clock reading at which its cool-down test was evaluated; and one iteration
issues at most one request. -/
theorem cooldown_invariant (clk : Nat → Nat) (tel : Nat → VehicleState) (hclk : Monotone clk)
    (i j ti tj : Nat) (hij : i < j)
    (h : (Event.set_mode_call ti ∈ events_at clk tel i
          ∧ Event.set_mode_call tj ∈ events_at clk tel j)
        ∨ (Event.arming_call ti ∈ events_at clk tel i
          ∧ Event.arming_call tj ∈ events_at clk tel j)) :
    ¬ ((tj : Int) - (ti : Int) < 5000000000)
    ∧ ((events_at clk tel i).filter Event.is_request).length ≤ 1
    ∧ ((events_at clk tel j).filter Event.is_request).length ≤ 1 := by
  refine ⟨?_, tick_one_request _ _ _, tick_one_request _ _ _⟩
  rcases h with ⟨hi, hj⟩ | ⟨hi, hj⟩
  · have := requests_spaced clk hclk tel i j hij _ _ ti tj hi hj rfl rfl
    omega
  · have := requests_spaced clk hclk tel i j hij _ _ ti tj hi hj rfl rfl
    omega

/-- The cool-down invariant on the first two iterations of a run with a clock
advancing 6 s per reading and a vehicle that stays in `MANUAL`: mode-change
requests evaluated at 6 s and at 18 s. -/
theorem cooldown_invariant_witness :
    ¬ (((18000000000 : Nat) : Int) - ((6000000000 : Nat) : Int) < 5000000000)
    ∧ ((events_at clk_6s tel_manual 0).filter Event.is_request).length ≤ 1
    ∧ ((events_at clk_6s tel_manual 1).filter Event.is_request).length ≤ 1 :=
  cooldown_invariant clk_6s tel_manual clk_6s_monotone 0 1 6000000000 18000000000 (by decide)
    (Or.inl ⟨by decide, by decide⟩)

/-- C5, counterexample. With a vehicle that stays in mode `MANUAL` and disarmed
(and a clock that does not advance) the first 400 iterations publish no
attitude setpoint and iteration 400 publishes it: the first attitude setpoint
goes out with a cached mode other than `OFFBOARD` and a disarmed vehicle. -/
theorem attitude_without_offboard :
    (∀ k, k < 400 → Event.att_pub ∉ events_at clk_frozen tel_manual k)
    ∧ Event.att_pub ∈ events_at clk_frozen tel_manual 400
    ∧ (tel_manual 400).mode ≠ "OFFBOARD"
    ∧ (tel_manual 400).armed = false := by
  refine ⟨fun k hk => (first_ticks_position _ _ k hk).2, ?_, by decide, rfl⟩
  rw [events_frozen]
  decide

/-- C5, amended. On the first iteration that publishes an attitude setpoint, at
least 400 iterations have gone before, `step_counter` is at least 400 and the
iteration issues no request, the attitude setpoint being its only event: the
cached mode is `OFFBOARD` or not more than 5.0 s had elapsed at the mode test,
and the vehicle is armed or not more than 5.0 s had elapsed at the arm test.
The cached mode and the armed flag are not constrained any further. -/
theorem first_attitude_tick (clk : Nat → Nat) (tel : Nat → VehicleState) (n : Nat)
    (hn : Event.att_pub ∈ events_at clk tel n)
    (hfirst : ∀ k, k < n → Event.att_pub ∉ events_at clk tel k) :
    400 ≤ n
    ∧ 400 ≤ (state_at clk tel n).step_counter
    ∧ events_at clk tel n = [Event.att_pub]
    ∧ ((tel n).mode = "OFFBOARD"
        ∨ ¬ ((clk (state_at clk tel n).now_calls : Int)
              - ((state_at clk tel n).last_request : Int) > 5000000000))
    ∧ ((tel n).armed = true
        ∨ ¬ ((clk (if (tel n).mode = "OFFBOARD" then (state_at clk tel n).now_calls
                else (state_at clk tel n).now_calls + 1) : Int)
              - ((state_at clk tel n).last_request : Int) > 5000000000)) := by
  have h400 : 400 ≤ n := by
    by_contra hlt
    exact (first_ticks_position clk tel n (by omega)).2 hn
  obtain ⟨m, rfl⟩ : ∃ m, n = m + 1 := ⟨n - 1, by omega⟩
  have hprev := hfirst m (by omega)
  unfold events_at at hprev hn ⊢
  rw [(tick_publication clk (tel m) (state_at clk tel m)).2] at hprev
  rw [(tick_publication clk (tel (m + 1)) (state_at clk tel (m + 1))).2] at hn
  have hs : (state_at clk tel (m + 1)).step_one ≠ 0 := by
    rw [state_at]
    exact hprev
  rcases tick_step_one clk (tel (m + 1)) (state_at clk tel (m + 1)) with
    ⟨e, _⟩ | ⟨e, i1, i2, ev⟩
  · rw [e] at hn
    exact absurd hn hs
  · rw [hn] at e
    have hi := idle_conditions clk (tel (m + 1)) (state_at clk tel (m + 1)) i1 i2
    by_cases hc : (state_at clk tel (m + 1)).step_counter < 400
    · rw [if_pos hc] at e
      exact absurd e (by decide)
    · rw [if_neg hc] at ev
      exact ⟨h400, by omega, ev, hi.1, hi.2⟩

/-- The amended C5 on a run with the vehicle in mode `OFFBOARD` and armed on
every iteration: the first attitude setpoint is that of iteration 400. -/
theorem first_attitude_tick_witness :
    400 ≤ 400
    ∧ 400 ≤ (state_at clk_20ms tel_offboard_armed 400).step_counter
    ∧ events_at clk_20ms tel_offboard_armed 400 = [Event.att_pub]
    ∧ ((tel_offboard_armed 400).mode = "OFFBOARD"
        ∨ ¬ ((clk_20ms (state_at clk_20ms tel_offboard_armed 400).now_calls : Int)
              - ((state_at clk_20ms tel_offboard_armed 400).last_request : Int) > 5000000000))
    ∧ ((tel_offboard_armed 400).armed = true
        ∨ ¬ ((clk_20ms (if (tel_offboard_armed 400).mode = "OFFBOARD"
                then (state_at clk_20ms tel_offboard_armed 400).now_calls
                else (state_at clk_20ms tel_offboard_armed 400).now_calls + 1) : Int)
              - ((state_at clk_20ms tel_offboard_armed 400).last_request : Int)
                > 5000000000)) :=
  first_attitude_tick clk_20ms tel_offboard_armed 400
    (by rw [events_offboard_armed _ _ _ rfl rfl]; decide)
    (fun k hk => (first_ticks_position _ _ k hk).2)

/-- C6, counterexample. The vehicle is disarmed and in `MANUAL` for the first
400 iterations and first observed armed in mode `OFFBOARD` on iteration 400. At
the start of that iteration `step_counter` is 400, after it 401 and not 0, and
the iteration publishes the attitude setpoint at once, with no position
setpoint. -/
theorem warmup_not_restarted :
    (∀ k, k < 400 → (tel_late_arming k).armed = false)
    ∧ (tel_late_arming 400).armed = true
    ∧ (tel_late_arming 400).mode = "OFFBOARD"
    ∧ (state_at clk_20ms tel_late_arming 400).step_counter = 400
    ∧ (state_at clk_20ms tel_late_arming 401).step_counter = 401
    ∧ events_at clk_20ms tel_late_arming 400 = [Event.att_pub] := by
  refine ⟨?_, rfl, rfl, ?_, ?_, ?_⟩
  · intro k hk
    simp [tel_late_arming, hk]
  · rw [step_counter_at]
    decide
  · rw [step_counter_at]
    decide
  · rw [events_offboard_armed _ _ _ rfl rfl]
    decide

/-- C6, amended. The warm-up is counted from the entry of the loop:
`step_counter` is never reset, at the start of iteration `n` it is `n` (as an
`int16_t`) whatever the telemetry. Each of the first 400 iterations of the loop
publishes the position setpoint and no attitude setpoint, and an iteration
`n` with `400 ≤ n < 32768` that finds the vehicle armed in mode `OFFBOARD`
publishes the attitude setpoint at once. -/
theorem warmup_from_loop_entry (clk : Nat → Nat) (tel : Nat → VehicleState) (n : Nat) :
    (state_at clk tel n).step_counter = wrap16 n
    ∧ (n < 400 → Event.pos_pub ∈ events_at clk tel n ∧ Event.att_pub ∉ events_at clk tel n)
    ∧ (400 ≤ n → n < 32768 → (tel n).armed = true → (tel n).mode = "OFFBOARD" →
        events_at clk tel n = [Event.att_pub]) := by
  refine ⟨step_counter_at clk tel n, first_ticks_position clk tel n, ?_⟩
  intro h1 h2 ha hm
  rw [events_offboard_armed clk tel n hm ha, wrap16_nat_small n h2, if_neg (by omega)]

/-- The amended C6 on iterations 399 and 400 of the run with the late arming. -/
theorem warmup_from_loop_entry_witness :
    (Event.pos_pub ∈ events_at clk_20ms tel_late_arming 399
      ∧ Event.att_pub ∉ events_at clk_20ms tel_late_arming 399)
    ∧ events_at clk_20ms tel_late_arming 400 = [Event.att_pub] :=
  ⟨(warmup_from_loop_entry clk_20ms tel_late_arming 399).2.1 (by decide),
    (warmup_from_loop_entry clk_20ms tel_late_arming 400).2.2 (by decide) (by decide) rfl rfl⟩

/-- C7. Phase boundary in a run where every iteration finds the vehicle in mode
`OFFBOARD` and armed: iterations 0 to 399 (ticks 1 to 400) publish the position
setpoint and nothing else, iteration 400 (tick 401) publishes the attitude
setpoint, and so does every iteration up to 32767. Tick 400 is not the last one
to publish the position setpoint: iteration 32768 finds the `int16_t` counter
wrapped to -32768 and publishes the position setpoint again. -/
theorem phase_boundary (clk : Nat → Nat) (tel : Nat → VehicleState)
    (h : ∀ k, (tel k).mode = "OFFBOARD" ∧ (tel k).armed = true) :
    (∀ k, k < 400 → events_at clk tel k = [Event.pos_pub])
    ∧ events_at clk tel 400 = [Event.att_pub]
    ∧ (∀ k, 400 ≤ k → k < 32768 → events_at clk tel k = [Event.att_pub])
    ∧ events_at clk tel 32768 = [Event.pos_pub] := by
  have e := fun k => events_offboard_armed clk tel k (h k).1 (h k).2
  refine ⟨?_, ?_, ?_, ?_⟩
  · intro k hk
    rw [e, wrap16_nat_small k (by omega), if_pos (by omega)]
  · rw [e]
    decide
  · intro k h1 h2
    rw [e, wrap16_nat_small k h2, if_neg (by omega)]
  · rw [e, wrap16_32768]
    decide

/-- The phase boundary on the run of `tel_offboard_armed`. -/
theorem phase_boundary_witness :
    (∀ k, k < 400 → events_at clk_20ms tel_offboard_armed k = [Event.pos_pub])
    ∧ events_at clk_20ms tel_offboard_armed 400 = [Event.att_pub]
    ∧ (∀ k, 400 ≤ k → k < 32768 → events_at clk_20ms tel_offboard_armed k = [Event.att_pub])
    ∧ events_at clk_20ms tel_offboard_armed 32768 = [Event.pos_pub] :=
  phase_boundary clk_20ms tel_offboard_armed (fun _ => ⟨rfl, rfl⟩)

/-- C8. The attitude phase is left again: in the run where every iteration
finds the vehicle in mode `OFFBOARD` and armed, iteration 400 publishes the
attitude setpoint, at the start of iteration 32768 the `int16_t` counter has
wrapped to -32768, and that later iteration publishes the position setpoint. -/
theorem attitude_hold_left_at_wrap :
    events_at clk_20ms tel_offboard_armed 400 = [Event.att_pub]
    ∧ (state_at clk_20ms tel_offboard_armed 32768).step_counter = -32768
    ∧ events_at clk_20ms tel_offboard_armed 32768 = [Event.pos_pub] := by
  refine ⟨?_, ?_, ?_⟩
  · rw [events_offboard_armed _ _ _ rfl rfl]
    decide
  · rw [step_counter_at, wrap16_32768]
  · rw [events_offboard_armed _ _ _ rfl rfl, wrap16_32768]
    decide

/-- C9, counterexample. The vehicle is armed in mode `MANUAL` and the clock
reads exactly 5.0 s after the recorded request time at the mode test of the
first iteration: at least 5.0 s have elapsed and the mode differs from
`OFFBOARD`, yet no mode-change request is issued, the position setpoint being
the only event. -/
theorem no_mode_request_at_five_seconds :
    (tel_manual_armed 0).mode ≠ "OFFBOARD"
    ∧ (5000000000 : Int)
        ≤ (clk_5s (state_at clk_5s tel_manual_armed 0).now_calls : Int)
          - ((state_at clk_5s tel_manual_armed 0).last_request : Int)
    ∧ events_at clk_5s tel_manual_armed 0 = [Event.pos_pub] := by
  decide

/-- C9, amended. An iteration issues a mode-change request if and only if the
cached mode differs from `OFFBOARD` and more than 5.0 s have elapsed from the
recorded request time to the clock reading of the test; the request carries
that reading and the next reading is recorded as the request time. No
mode-change request is issued by an iteration whose cached mode is `OFFBOARD`. -/
theorem mode_request_iff (clk : Nat → Nat) (cs : VehicleState) (s : LoopState) :
    ((∃ t, Event.set_mode_call t ∈ (tick clk cs s).2)
      ↔ (cs.mode ≠ "OFFBOARD"
          ∧ (clk s.now_calls : Int) - (s.last_request : Int) > 5000000000))
    ∧ (∀ t, Event.set_mode_call t ∈ (tick clk cs s).2 →
        t = clk s.now_calls ∧ (tick clk cs s).1.last_request = clk (s.now_calls + 1))
    ∧ (cs.mode = "OFFBOARD" → ∀ t, Event.set_mode_call t ∉ (tick clk cs s).2) := by
  refine ⟨?_, ?_, ?_⟩
  · rw [← mode_fires_iff]
    constructor
    · rintro ⟨t, ht⟩
      exact ((set_mode_mem_tick clk cs s t).1 ht).1
    · intro h
      exact ⟨clk s.now_calls, (set_mode_mem_tick clk cs s _).2 ⟨h, rfl⟩⟩
  · intro t ht
    obtain ⟨h1, h2⟩ := (set_mode_mem_tick clk cs s t).1 ht
    rw [tick_mode clk cs s h1]
    exact ⟨h2, rfl⟩
  · intro hm t ht
    have h1 := ((set_mode_mem_tick clk cs s t).1 ht).1
    rw [mode_fires_iff] at h1
    exact h1.1 hm

/-- C10, counterexample. The vehicle is disarmed in mode `MANUAL`; the clock is
non-decreasing, reads exactly 5.0 s after the recorded request time at the mode
test of the first iteration and 1 ns more at its arm test. The iteration issues
an arm request although the cached mode is not `OFFBOARD`. -/
theorem arm_request_without_offboard :
    Monotone clk_boundary
    ∧ (tel_manual 0).mode ≠ "OFFBOARD"
    ∧ (tel_manual 0).armed = false
    ∧ events_at clk_boundary tel_manual 0 = [Event.arming_call 5000000001, Event.pos_pub] :=
  ⟨clk_boundary_monotone, by decide, rfl, by decide⟩

/-- C10, amended. An iteration issues an arm request only if the vehicle is
reported not armed, the iteration issues no mode-change request, and either
the cached mode equals `OFFBOARD` or the cool-down, not elapsed at the clock
reading of the mode test, has elapsed at the next reading, that of the arm
test. -/
theorem arm_request_only_if (clk : Nat → Nat) (cs : VehicleState) (s : LoopState) (t : Nat)
    (h : Event.arming_call t ∈ (tick clk cs s).2) :
    cs.armed = false
    ∧ (∀ u, Event.set_mode_call u ∉ (tick clk cs s).2)
    ∧ (cs.mode = "OFFBOARD"
        ∨ (¬ ((clk s.now_calls : Int) - (s.last_request : Int) > 5000000000)
            ∧ (clk (s.now_calls + 1) : Int) - (s.last_request : Int) > 5000000000)) := by
  obtain ⟨ha, -⟩ := (arming_mem_tick clk cs s t).1 h
  simp only [arm_fires, Bool.and_eq_true, Bool.not_eq_true'] at ha
  obtain ⟨h1, h2, h3⟩ := ha
  refine ⟨h2, ?_, ?_⟩
  · intro u hu
    have := ((set_mode_mem_tick clk cs s u).1 hu).1
    rw [h1] at this
    exact Bool.noConfusion this
  · by_cases hm : cs.mode = "OFFBOARD"
    · exact Or.inl hm
    · right
      have hne : (cs.mode != "OFFBOARD") = true := by simpa using hm
      simp only [arm_reading, hne, if_true] at h3
      simp only [mode_fires, hne, Bool.true_and] at h1
      simp only [cooldown_elapsed, decide_eq_true_eq, decide_eq_false_iff_not] at h1 h3
      exact ⟨h1, h3⟩

/-- The amended C10 on the first iteration of the run with the clock at the
5.0 s boundary. -/
theorem arm_request_only_if_witness :
    (tel_manual 0).armed = false
    ∧ (∀ u, Event.set_mode_call u ∉ (tick clk_boundary (tel_manual 0) (init clk_boundary)).2)
    ∧ ((tel_manual 0).mode = "OFFBOARD"
        ∨ (¬ ((clk_boundary (init clk_boundary).now_calls : Int)
                - ((init clk_boundary).last_request : Int) > 5000000000)
            ∧ (clk_boundary ((init clk_boundary).now_calls + 1) : Int)
                - ((init clk_boundary).last_request : Int) > 5000000000)) :=
  arm_request_only_if clk_boundary (tel_manual 0) (init clk_boundary) 5000000001 (by decide)

/-- The attitude phase is kept up to the wrap on the run with the vehicle in mode
`OFFBOARD` and armed: iteration 400 publishes the attitude setpoint and so does
iteration 32767, the last before the counter wraps. -/
theorem attitude_hold_before_wrap_witness :
    Event.att_pub ∈ events_at clk_20ms tel_offboard_armed 32767
    ∧ Event.pos_pub ∉ events_at clk_20ms tel_offboard_armed 32767 :=
  attitude_hold_before_wrap clk_20ms tel_offboard_armed 400 32767
    (by rw [events_offboard_armed _ _ _ rfl rfl]; decide) (by decide) (by decide)

/-- C11. The quaternion `(q1, q2, q3, q4) = (w, x, y, z)` written by `from_euler`
is the Hamilton product `qz(yaw) * qy(pitch) * qx(roll)` of the three half-angle
axis rotations, for every real roll, pitch and yaw. -/
theorem from_euler_is_composition (roll pitch yaw : ℝ) :
    (from_euler roll pitch yaw).q1 = (aerospace_composition roll pitch yaw).re
    ∧ (from_euler roll pitch yaw).q2 = (aerospace_composition roll pitch yaw).imI
    ∧ (from_euler roll pitch yaw).q3 = (aerospace_composition roll pitch yaw).imJ
    ∧ (from_euler roll pitch yaw).q4 = (aerospace_composition roll pitch yaw).imK := by
  simp only [from_euler, half_mul, aerospace_composition, qx, qy, qz, Quaternion.mul_re,
    Quaternion.mul_imI, Quaternion.mul_imJ, Quaternion.mul_imK]
  refine ⟨by ring, by ring, by ring, by ring⟩

/-- C12. Scenario of the configured target `(0, 0, 0)` degrees: `from_euler`
yields `(w, x, y, z) = (1, 0, 0, 0)`; the attitude setpoint published by the
loop carries that orientation, thrust `0.7059122` and type mask `0b00000111 = 7`;
the position setpoint carries the same orientation. -/
theorem zero_target_setpoints :
    from_euler (roll_deg * M_PI / 180) (pitch_deg * M_PI / 180) (yaw_deg * M_PI / 180)
      = { q1 := 1, q2 := 0, q3 := 0, q4 := 0 }
    ∧ Event.payload Event.att_pub
      = some (Message.on_attitude_topic
          { orientation := { w := 1, x := 0, y := 0, z := 0 }, thrust := 0.7059122,
            type_mask := 7 })
    ∧ Event.payload Event.pos_pub
      = some (Message.on_position_topic
          { position_x := 1, position_y := 2, position_z := 5,
            orientation := { w := 1, x := 0, y := 0, z := 0 } }) := by
  refine ⟨att_quat_eq, ?_, ?_⟩
  · simp only [Event.payload, attitude_raw, att_quat_eq]
  · simp only [Event.payload, pose, att_quat_eq]

/-- C13, counterexample. The message `imu_near_lock` carries a unit quaternion
(to the precision of `double`) whose arcsine argument `2 (w y - z x)` lies in
`[-1, 1]`. `to_euler` converts the four values to `float` before the formulas;
the argument of the converted values is above 1, and the pitch cached by
`imu_cb` is the domain error, not the arcsine of the argument of the message's
quaternion. -/
theorem imu_cb_pitch_lost_by_narrowing :
    (-1 ≤ 2 * (imu_near_lock.orientation.w * imu_near_lock.orientation.y
          - imu_near_lock.orientation.z * imu_near_lock.orientation.x)
      ∧ 2 * (imu_near_lock.orientation.w * imu_near_lock.orientation.y
          - imu_near_lock.orientation.z * imu_near_lock.orientation.x) ≤ 1)
    ∧ (imu_cb imu_near_lock globals_at_start)._pitch = none
    ∧ (imu_cb imu_near_lock globals_at_start)._pitch
        ≠ some (Real.arcsin (2 * (imu_near_lock.orientation.w * imu_near_lock.orientation.y
          - imu_near_lock.orientation.z * imu_near_lock.orientation.x))) := by
  have e : (imu_cb imu_near_lock globals_at_start)._pitch = none := by
    simp only [imu_cb, to_euler, imu_near_lock, get_euler_pitch, near_lock_floats.1,
      near_lock_floats.2.1, near_lock_floats.2.2.1, near_lock_floats.2.2.2]
    apply asin_of_not_mem
    norm_num
  refine ⟨?_, e, ?_⟩
  · simp only [imu_near_lock]
    constructor <;> norm_num
  · rw [e]
    exact fun c => Option.noConfusion c

/-- C13, amended. After `imu_cb` has received a message with orientation
`(w, x, y, z)` the cached sample is that message. When the components converted
to `float`, `(W, X, Y, Z)`, lie in `[-1, 1]`, as for a unit quaternion, the
cached `float` quaternion is `(W, X, Y, Z)` and the cached Euler angles are
those of the converted quaternion: `atan2(2(WX+YZ), 1 - 2(X^2+Y^2))`, the
arcsine of `2(WY - ZX)` when that argument lies in `[-1, 1]`, and
`atan2(2(WZ+XY), 1 - 2(Y^2+Z^2))`. `state_cb` changes neither the sample nor
the angles, and after any further sequence of callbacks the cached angles are
still what `to_euler` computes from the cached sample. -/
theorem imu_cb_euler_of_narrowed (msg : Imu) (g : Globals) (st : VehicleState)
    (cbs : List Callback) :
    (imu_cb msg g).current_imudata = msg
    ∧ ((|to_float msg.orientation.w| ≤ 1 ∧ |to_float msg.orientation.x| ≤ 1
          ∧ |to_float msg.orientation.y| ≤ 1 ∧ |to_float msg.orientation.z| ≤ 1) →
        (imu_cb msg g).current_imu_quat
          = { w := to_float msg.orientation.w, x := to_float msg.orientation.x,
              y := to_float msg.orientation.y, z := to_float msg.orientation.z }
        ∧ (imu_cb msg g)._roll
          = atan2f (2 * (to_float msg.orientation.w * to_float msg.orientation.x
                + to_float msg.orientation.y * to_float msg.orientation.z))
              (1 - 2 * (to_float msg.orientation.x ^ 2 + to_float msg.orientation.y ^ 2))
        ∧ ((-1 ≤ 2 * (to_float msg.orientation.w * to_float msg.orientation.y
                - to_float msg.orientation.z * to_float msg.orientation.x)
            ∧ 2 * (to_float msg.orientation.w * to_float msg.orientation.y
                - to_float msg.orientation.z * to_float msg.orientation.x) ≤ 1) →
          (imu_cb msg g)._pitch
            = some (Real.arcsin
                (2 * (to_float msg.orientation.w * to_float msg.orientation.y
                  - to_float msg.orientation.z * to_float msg.orientation.x))))
        ∧ (imu_cb msg g)._yaw
          = atan2f (2 * (to_float msg.orientation.w * to_float msg.orientation.z
                + to_float msg.orientation.x * to_float msg.orientation.y))
              (1 - 2 * (to_float msg.orientation.y ^ 2 + to_float msg.orientation.z ^ 2)))
    ∧ (state_cb st g).current_imudata = g.current_imudata
    ∧ (state_cb st g).current_imu_quat = g.current_imu_quat
    ∧ (state_cb st g)._roll = g._roll
    ∧ (state_cb st g)._pitch = g._pitch
    ∧ (state_cb st g)._yaw = g._yaw
    ∧ euler_derived (deliver_all cbs (imu_cb msg g)) := by
  refine ⟨rfl, fun _ => ⟨rfl, ?_, ?_, ?_⟩, rfl, rfl, rfl, rfl, rfl,
    euler_derived_deliver_all cbs _ (euler_derived_imu_cb msg g)⟩
  · simp only [imu_cb, to_euler, get_euler_roll, sq]
  · intro h
    simp only [imu_cb, to_euler, get_euler_pitch]
    exact asin_of_mem _ h
  · simp only [imu_cb, to_euler, get_euler_yaw, sq]

/-- The amended C13 on the message `imu_at_lock`, a unit quaternion of `float`
values at pitch `π/2`, followed by a state message: the cached pitch is the
arcsine of 1. -/
theorem imu_cb_euler_of_narrowed_witness :
    (imu_cb imu_at_lock globals_at_start)._pitch = some (Real.arcsin 1)
    ∧ euler_derived
        (deliver_all [Callback.state (tel_manual 0)] (imu_cb imu_at_lock globals_at_start)) := by
  have h := imu_cb_euler_of_narrowed imu_at_lock globals_at_start (tel_manual 0)
    [Callback.state (tel_manual 0)]
  refine ⟨?_, h.2.2.2.2.2.2.2⟩
  have hp := h.2.1
  simp only [show imu_at_lock.orientation.w = 1 / 2 from rfl,
    show imu_at_lock.orientation.x = -1 / 2 from rfl,
    show imu_at_lock.orientation.y = 1 / 2 from rfl,
    show imu_at_lock.orientation.z = 1 / 2 from rfl, to_float_half, to_float_neg_half] at hp
  rw [(hp (by norm_num [abs_le])).2.2.1 (by norm_num)]
  norm_num

/-- C14. Connection loss is ignored after the link wait: two runs of `main`
with the same clock whose telemetry agrees on the connected flag up to the exit
of the wait loop and on the mode and the armed flag throughout, the connected
flag being free after the exit, leave the wait loop at the same point and have
the same events (requests and setpoints) on every iteration of the tick loop. -/
theorem connection_loss_ignored (clk : Nat → Nat) (tel tel2 : Nat → VehicleState)
    (fuel k : Nat) (hexit : wait_for_link tel fuel 0 = some k)
    (hpre : ∀ i, i ≤ k → (tel2 i).connected = (tel i).connected)
    (hsame : ∀ i, (tel2 i).mode = (tel i).mode ∧ (tel2 i).armed = (tel i).armed) :
    wait_for_link tel2 fuel 0 = some k
    ∧ ∀ n, main_events clk tel2 fuel n = main_events clk tel fuel n
        ∧ main_events clk tel fuel n = some (events_at clk (fun i => tel (k + i)) n) := by
  have h2 := wait_for_link_congr tel tel2 fuel 0 k hexit hpre
  refine ⟨h2, fun n => ?_⟩
  have e1 : main_events clk tel fuel n = some (events_at clk (fun i => tel (k + i)) n) := by
    rw [main_events, hexit, Option.map_some']
  have e2 : main_events clk tel2 fuel n = some (events_at clk (fun i => tel2 (k + i)) n) := by
    rw [main_events, h2, Option.map_some']
  rw [e2, e1, events_at_congr clk _ _ (fun i => hsame (k + i)) n]
  exact ⟨rfl, rfl⟩

/-- C14 on a link that comes up on the third look, against the same telemetry
with the link reported down again from the fifth look on. -/
theorem connection_loss_ignored_witness :
    (tel_link_lost 4).connected ≠ (tel_link_up 4).connected
    ∧ wait_for_link tel_link_lost 10 0 = some 2
    ∧ ∀ n, main_events clk_6s tel_link_lost 10 n = main_events clk_6s tel_link_up 10 n
        ∧ main_events clk_6s tel_link_up 10 n
          = some (events_at clk_6s (fun i => tel_link_up (2 + i)) n) :=
  ⟨by decide,
    connection_loss_ignored clk_6s tel_link_up tel_link_lost 10 2 (by decide)
      (fun i hi => by
        simp only [tel_link_lost, tel_link_up, decide_eq_decide]
        omega)
      (fun _ => ⟨rfl, rfl⟩)⟩

/-- C15. Every iteration publishes exactly one setpoint, the position setpoint
or the attitude setpoint and never both or neither, whatever the cached state,
the clock and the loop state, also when it issues a request. -/
theorem one_setpoint_per_tick (clk : Nat → Nat) (cs : VehicleState) (s : LoopState) :
    ((tick clk cs s).2.filter Event.is_setpoint).length = 1
    ∧ (tick clk cs s).2.count Event.pos_pub + (tick clk cs s).2.count Event.att_pub = 1
    ∧ ((Event.pos_pub ∈ (tick clk cs s).2 ∧ Event.att_pub ∉ (tick clk cs s).2)
      ∨ (Event.att_pub ∈ (tick clk cs s).2 ∧ Event.pos_pub ∉ (tick clk cs s).2)) := by
  rcases tick_branches clk cs s with h1 | ⟨h1, h2⟩ | ⟨h1, h2⟩
  · rw [tick_mode clk cs s h1]
    rcases published_cases s.step_one with e | e <;> rw [e] <;>
      simp [List.filter, Event.is_setpoint]
  · rw [tick_arm clk cs s h2]
    rcases published_cases s.step_one with e | e <;> rw [e] <;>
      simp [List.filter, Event.is_setpoint]
  · rw [tick_idle clk cs s h1 h2]
    rcases published_cases (if s.step_counter < 400 then 1 else 0) with e | e <;> rw [e] <;>
      simp [List.filter, Event.is_setpoint]

/-- C16. For a unit quaternion `(w, x, y, z)` the value `2 (w y - z x)` handed
to `asin` in `get_euler_pitch` lies in `[-1, 1]`: the unclamped `asin` stays in
its domain and `get_euler_pitch` returns the arcsine of that value. -/
theorem pitch_in_domain_of_unit (w x y z : ℝ) (h : w ^ 2 + x ^ 2 + y ^ 2 + z ^ 2 = 1) :
    -1 ≤ 2 * (w * y - z * x)
    ∧ 2 * (w * y - z * x) ≤ 1
    ∧ get_euler_pitch w x y z = some (Real.arcsin (2 * (w * y - z * x))) := by
  have hb := pitch_arg_bounds w x y z h
  refine ⟨hb.1, hb.2, ?_⟩
  rw [get_euler_pitch, asin_of_mem _ hb]

/-- C16 at the unit quaternion `(w, x, y, z) = (3/5, 0, 4/5, 0)`, whose arcsine
argument is `24/25`. -/
theorem pitch_in_domain_of_unit_witness :
    -1 ≤ 2 * ((3 / 5 : ℝ) * (4 / 5) - 0 * 0)
    ∧ 2 * ((3 / 5 : ℝ) * (4 / 5) - 0 * 0) ≤ 1
    ∧ get_euler_pitch (3 / 5) 0 (4 / 5) 0
        = some (Real.arcsin (2 * ((3 / 5 : ℝ) * (4 / 5) - 0 * 0))) :=
  pitch_in_domain_of_unit (3 / 5) 0 (4 / 5) 0 (by norm_num)

/-- C17. The cool-down is shared between the two kinds of request and starts at
the entry of the loop: with non-decreasing clock readings, every request of
either kind is evaluated more than 5.0 s after the reading taken just before
the loop, which is the initial `last_request`, two requests of either kind on
different iterations are evaluated more than 5.0 s apart, and one iteration
issues at most one request. -/
theorem shared_cooldown (clk : Nat → Nat) (tel : Nat → VehicleState) (hclk : Monotone clk) :
    (init clk).last_request = clk 0
    ∧ (∀ n e t, e ∈ events_at clk tel n → e.request_time = some t →
        clk 0 + 5000000000 < t)
    ∧ (∀ i j ei ej ti tj, i < j → ei ∈ events_at clk tel i → ej ∈ events_at clk tel j →
        ei.request_time = some ti → ej.request_time = some tj →
        ti + 5000000000 < tj)
    ∧ (∀ n, ((events_at clk tel n).filter Event.is_request).length ≤ 1) := by
  refine ⟨rfl, ?_, ?_, fun n => tick_one_request _ _ _⟩
  · intro n e t he ht
    exact request_after_entry clk hclk tel n e t he ht
  · intro i j ei ej ti tj hij hi hj hti htj
    exact requests_spaced clk hclk tel i j hij ei ej ti tj hi hj hti htj

/-- C17 on a run with a clock advancing 6 s per reading: a mode-change request
evaluated at 6 s on the first iteration and an arm request evaluated at 18 s on
the second. -/
theorem shared_cooldown_witness :
    clk_6s 0 + 5000000000 < 6000000000
    ∧ 6000000000 + 5000000000 < 18000000000 :=
  have h := shared_cooldown clk_6s tel_mode_then_arm clk_6s_monotone
  ⟨h.2.1 0 (Event.set_mode_call 6000000000) 6000000000 (by decide) rfl,
    h.2.2.1 0 1 (Event.set_mode_call 6000000000) (Event.arming_call 18000000000) 6000000000
      18000000000 (by decide) (by decide) (by decide) rfl rfl⟩

end SetpointAttitude
